import Mathlib

/-!
# elasticsearch-operator: fake Elasticsearch transport and secret fingerprint

A shallow embedding of

* `test/helpers/elasticsearch.go`: the `FakeElasticsearchChatter` test double
  (capture table, scripted-response table, sequence counter) and the request
  function built by `NewFakeSendRequestFn`;
* `internal/kibana/secret.go`: `calcSecretHashValue`, and the extraction of
  secrets to files by `readSecrets`, `extractCertificates` and
  `extractSecretToFile`.

Conventions.

* A Go `map[string]V` that is only read and written by key is its lookup
  function `String → Option V` (`GoMap`). A map that the code ranges over is a
  list of entries in the order the `range` loop visits them.
* Methods with a pointer receiver take the chatter and return the chatter as it
  is in memory afterwards, next to what the call produced.
* Indexing an empty slice is a Go run-time panic. The mutations made before the
  panic stay in memory, so a panicking call still returns the chatter.
* A Go result `(value, error)` is a pair whose second part is `none` for the
  nil error. Functions of other packages that the code calls (`json.Unmarshal`,
  `utils.CalculateMD5Hash`, `secret.Get`, `utils.WriteToWorkingDirFile`) are
  arguments of the definitions that call them.
* Go `int` is `Int`. The counter only grows by one per captured request, and
  each captured request is kept in memory, so wrap-around is out of reach.
-/

namespace EsOperator

/-! ## Go maps and run-time panics -/

/-- Go `map[string]V`, seen through its lookup. `none` is "key absent". -/
abbrev GoMap (V : Type) := String → Option V

/-- The empty map literal `map[string]V{}`. -/
def GoMap.empty {V : Type} : GoMap V := fun _ => none

/-- Assignment `m[k] = v`. -/
def GoMap.set {V : Type} (m : GoMap V) (k : String) (v : V) : GoMap V :=
  fun j => if j = k then some v else m j

/-- Result of a call that may hit a Go run-time panic. -/
inductive Outcome (α : Type) where
  /-- The call returned normally with the given value. -/
  | ok (val : α)
  /-- The call panicked with "index out of range [0] with length 0". -/
  | indexOutOfRange
deriving DecidableEq, Repr

/-! ## Data model -/

/-- Go `FakeElasticsearchRequest`. -/
structure FakeElasticsearchRequest where
  URI : String
  Method : String
  Body : String
  SeqNo : Int
deriving DecidableEq, Repr

/-- Go `FakeElasticsearchRequests`. -/
abbrev FakeElasticsearchRequests := List FakeElasticsearchRequest

/-- A value stored in the key/value context of a `kverrors` error. -/
inductive CtxValue where
  /-- A string value. -/
  | str (s : String)
  /-- The request a `*esclient.EsRequest` points at, by its request fields. -/
  | request (uri method body : String)
deriving DecidableEq, Repr

/-- A Go `error` value that is not nil: a message with key/value context, as
built by `kverrors.New(msg, k1, v1, ...)`. -/
structure GoError where
  msg : String
  ctx : List (String × CtxValue)
deriving DecidableEq, Repr

/-- Go `FakeElasticsearchResponse`. `Error = none` is the nil error. -/
structure FakeElasticsearchResponse where
  Error : Option GoError
  StatusCode : Int
  Body : String
deriving DecidableEq, Repr

/-- Go `FakeElasticsearchResponses`. -/
abbrev FakeElasticsearchResponses := List FakeElasticsearchResponse

/-- A decoded JSON value held in a `map[string]interface{}`. -/
inductive JsonValue where
  /-- A Go string. -/
  | string (s : String)
  /-- Any other decoded value, by its JSON text. -/
  | other (text : String)
deriving DecidableEq, Repr

/-- Go `map[string]interface{}` as produced by the JSON decoder. -/
abbrev JsonObject := List (String × JsonValue)

/-- The fields of `esclient.EsRequest` that the fake transport reads or writes.
`ResponseBody = none` is the nil map, `Error = none` the nil error. -/
structure EsRequest where
  Method : String
  URI : String
  RequestBody : String
  StatusCode : Int
  RawResponseBody : String
  ResponseBody : Option JsonObject
  Error : Option GoError
deriving DecidableEq, Repr

/-- Go `FakeElasticsearchChatter`. -/
structure FakeElasticsearchChatter where
  seqNo : Int
  Requests : GoMap FakeElasticsearchRequests
  RequestOrder : GoMap Int
  Responses : GoMap FakeElasticsearchResponses

/-! ## Operations -/

/-- Go `NewFakeElasticsearchChatter`. The argument lists the entries of the
caller's table in the order the `range` loop visits them; each slice header is
copied into a fresh map. -/
def NewFakeElasticsearchChatter (responses : List (String × FakeElasticsearchResponses)) :
    FakeElasticsearchChatter :=
  let fres := responses.foldl (fun fres entry => fres.set entry.1 entry.2) GoMap.empty
  { Requests := GoMap.empty
    RequestOrder := GoMap.empty
    Responses := fres
    seqNo := 1 }

/-- Go `(*FakeElasticsearchChatter).GetRequest`. The returned pair is
`(request, found)`; `requests[0]` panics when the slice stored under `key` is
empty. -/
def GetRequest (chat : FakeElasticsearchChatter) (key : String) :
    FakeElasticsearchChatter × Outcome (Option FakeElasticsearchRequest × Bool) :=
  match chat.Requests key with
  | none => (chat, .ok (none, false))
  | some [] => (chat, .indexOutOfRange)
  | some (request :: rest) =>
    ({ chat with Requests := chat.Requests.set key rest }, .ok (some request, true))

/-- Go `(*FakeElasticsearchChatter).GetResponse`. The returned pair is
`(response, found)`; `responses[0]` panics when the slice stored under `key` is
empty. -/
def GetResponse (chat : FakeElasticsearchChatter) (key : String) :
    FakeElasticsearchChatter × Outcome (Option FakeElasticsearchResponse × Bool) :=
  match chat.Responses key with
  | none => (chat, .ok (none, false))
  | some [] => (chat, .indexOutOfRange)
  | some (response :: rest) =>
    ({ chat with Responses := chat.Responses.set key rest }, .ok (some response, true))

/-- Go `(*FakeElasticsearchChatter).nextSeqNo`: returns the counter and
increments it. -/
def nextSeqNo (chat : FakeElasticsearchChatter) : FakeElasticsearchChatter × Int :=
  let next := chat.seqNo
  ({ chat with seqNo := chat.seqNo + 1 }, next)

/-- Go `(*FakeElasticsearchChatter).recordRequest`. Reading a missing key of
`chat.Requests` gives the nil slice, and `append` to it gives a one-element
slice. -/
def recordRequest (chat : FakeElasticsearchChatter) (payload : EsRequest) :
    FakeElasticsearchChatter :=
  let key := payload.URI
  let (chat1, seq) := nextSeqNo chat
  let req : FakeElasticsearchRequest :=
    { URI := key, Body := payload.RequestBody, Method := payload.Method, SeqNo := seq }
  { chat1 with Requests := chat1.Requests.set key ((chat1.Requests key).getD [] ++ [req]) }

/-- Go `(*FakeElasticsearchResponse).BodyAsResponseBody`. The result is a Go
map, `none` for the nil map. `unmarshal s` stands for
`json.Unmarshal([]byte(s), &body)` on the fresh empty map `body`: it gives the
variable `body` as the decoder leaves it and the decoder's error (`none` is
nil). The decoder writes through the pointer, so it can leave entries in the
map also when it fails, and it can set the variable to the nil map. When the
error is not nil the code drops that map and makes a new one with the single
entry `results`; otherwise it returns `body` as it is. -/
def BodyAsResponseBody (unmarshal : String → Option JsonObject × Option GoError)
    (response : FakeElasticsearchResponse) : Option JsonObject :=
  match unmarshal response.Body with
  | (body, none) => body
  | (_, some _) => some [("results", JsonValue.string response.Body)]

/-- The error built in the `else` branch of the request function:
`kverrors.New("No fake response found for uri", "uri", payload.URI, "payload", payload)`. -/
def noFakeResponseError (payload : EsRequest) : GoError :=
  { msg := "No fake response found for uri"
    ctx := [("uri", CtxValue.str payload.URI),
            ("payload", CtxValue.request payload.URI payload.Method payload.RequestBody)] }

/-- The function returned by Go `NewFakeSendRequestFn(chatter)`, applied to a
payload. The logger, cluster, namespace and client arguments are not used by
the body. Returns the chatter and the payload as they are in memory after the
call; when `GetResponse` panics the payload has not been touched. -/
def NewFakeSendRequestFn (unmarshal : String → Option JsonObject × Option GoError)
    (chatter : FakeElasticsearchChatter) (payload : EsRequest) :
    FakeElasticsearchChatter × Outcome EsRequest :=
  let chat1 := recordRequest chatter payload
  match GetResponse chat1 payload.URI with
  | (chat2, .indexOutOfRange) => (chat2, .indexOutOfRange)
  | (chat2, .ok (some val, true)) =>
    (chat2, .ok { payload with
      Error := val.Error
      StatusCode := val.StatusCode
      RawResponseBody := val.Body
      ResponseBody := BodyAsResponseBody unmarshal val })
  | (chat2, .ok _) =>
    (chat2, .ok { payload with Error := some (noFakeResponseError payload) })

/-! ## Test drivers -/

/-- One operation a test performs on the chatter. -/
inductive Op where
  /-- A simulated call through the request function. -/
  | call (payload : EsRequest)
  /-- A retrieval `chatter.GetRequest(key)`. -/
  | getRequest (key : String)
  /-- A retrieval `chatter.GetResponse(key)`. -/
  | getResponse (key : String)
deriving DecidableEq, Repr

/-- The chatter in memory after one operation, whether or not it panicked. -/
def step (unmarshal : String → Option JsonObject × Option GoError) (chat : FakeElasticsearchChatter) :
    Op → FakeElasticsearchChatter
  | .call payload => (NewFakeSendRequestFn unmarshal chat payload).1
  | .getRequest key => (GetRequest chat key).1
  | .getResponse key => (GetResponse chat key).1

/-- The chatter in memory after a sequence of operations. -/
def exec (unmarshal : String → Option JsonObject × Option GoError) (chat : FakeElasticsearchChatter)
    (ops : List Op) : FakeElasticsearchChatter :=
  ops.foldl (step unmarshal) chat

/-- Whether an operation is a simulated call. -/
def Op.isCall : Op → Bool
  | .call _ => true
  | _ => false

/-- Number of simulated calls in a sequence of operations. -/
def numCalls (ops : List Op) : Nat := (ops.filter Op.isCall).length

/-- A request payload as a client hands it to the request function. -/
def newRequest (method uri body : String) : EsRequest :=
  { Method := method, URI := uri, RequestBody := body, StatusCode := 0,
    RawResponseBody := "", ResponseBody := none, Error := none }

/-- The results of `n` successive retrievals `chatter.GetRequest(key)`, in the
order they are made, next to the chatter left in memory. -/
def getRequests (chat : FakeElasticsearchChatter) (key : String) :
    Nat → FakeElasticsearchChatter × List (Outcome (Option FakeElasticsearchRequest × Bool))
  | 0 => (chat, [])
  | n + 1 =>
    let first := GetRequest chat key
    let later := getRequests first.1 key n
    (later.1, first.2 :: later.2)

/-- The chatter can be obtained from a freshly built one by simulated calls and
retrievals. -/
def Reachable (chat : FakeElasticsearchChatter) : Prop :=
  ∃ (unmarshal : String → Option JsonObject × Option GoError)
    (script : List (String × FakeElasticsearchResponses)) (ops : List Op),
    chat = exec unmarshal (NewFakeElasticsearchChatter script) ops

/-- Along the queue the sequence numbers strictly increase. -/
def SeqIncreasing (q : FakeElasticsearchRequests) : Prop :=
  q.Pairwise (fun a b => a.SeqNo < b.SeqNo)

/-- Invariant of the capture table: the counter is positive, and every queued
request carries a sequence number between 1 and the counter (exclusive), sits
under the key equal to its URI, and follows requests with smaller numbers. -/
def CaptureInv (chat : FakeElasticsearchChatter) : Prop :=
  1 ≤ chat.seqNo ∧
  ∀ (k : String) (q : FakeElasticsearchRequests), chat.Requests k = some q →
    (∀ c ∈ q, 1 ≤ c.SeqNo ∧ c.SeqNo < chat.seqNo ∧ c.URI = k) ∧ SeqIncreasing q

/-- Queued requests with the same sequence number are the same request. -/
def SeqNoUnique (chat : FakeElasticsearchChatter) : Prop :=
  ∀ (k1 k2 : String) (q1 q2 : FakeElasticsearchRequests) (c1 c2 : FakeElasticsearchRequest),
    chat.Requests k1 = some q1 → chat.Requests k2 = some q2 → c1 ∈ q1 → c2 ∈ q2 →
    c1.SeqNo = c2.SeqNo → c1 = c2

/-- A decoder that fails on every body after it has put an entry in the map. -/
def decodePartial : String → Option JsonObject × Option GoError :=
  fun _ =>
    (some [("took", JsonValue.other "3")],
      some { msg := "unexpected end of JSON input", ctx := [] })

/-- What `json.Unmarshal([]byte(s), &body)` does on the bodies `null` and `{}`.
For the JSON value null the library sets the map variable to nil and returns no
error; for the empty object it leaves the empty map and returns no error. Every
other body is rejected here, with the map left as it was. -/
def decodeNullOrEmpty : String → Option JsonObject × Option GoError :=
  fun s =>
    if s = "null" then (none, none)
    else if s = "\x7b\x7d" then (some [], none)
    else (some [], some { msg := "invalid character", ctx := [] })

/-- A scripted response whose Body is the JSON value null. -/
def nullResponse : FakeElasticsearchResponse :=
  { Error := none, StatusCode := 200, Body := "null" }

/-! ## Scenario data -/

/-- A decoder that accepts only the empty object `{}`. -/
def decodeEmpty : String → Option JsonObject × Option GoError :=
  fun s =>
    if s = "\x7b\x7d" then (some [], none)
    else (some [], some { msg := "invalid character", ctx := [] })

/-- The one scripted response of the search scenario. -/
def searchResponse : FakeElasticsearchResponse :=
  { Error := none, StatusCode := 200, Body := "\x7b\x7d" }

/-- The script of the search scenario: one response for `/idx/_search`. -/
def searchScript : List (String × FakeElasticsearchResponses) :=
  [("/idx/_search", [searchResponse])]

/-- A request to `/idx/_search`. -/
def searchRequest : EsRequest := newRequest "GET" "/idx/_search" ""

/-- A chatter that has captured one call to `/a` and has no script. -/
def oneCaptured : FakeElasticsearchChatter :=
  (NewFakeSendRequestFn decodeEmpty (NewFakeElasticsearchChatter []) (newRequest "GET" "/a" "")).1

/-- A script with two responses for `/a` and one for `/b`. -/
def twoEndpointScript : List (String × FakeElasticsearchResponses) :=
  [("/a", [{ Error := none, StatusCode := 200, Body := "\x7b\x7d" },
           { Error := none, StatusCode := 404, Body := "gone" }]),
   ("/b", [{ Error := none, StatusCode := 201, Body := "\x7b\x7d" }])]

/-- A chatter that has captured two calls to `/a` around one call to `/b`. -/
def threeCaptured : FakeElasticsearchChatter :=
  exec decodeEmpty (NewFakeElasticsearchChatter [])
    [Op.call (newRequest "GET" "/a" "first"), Op.call (newRequest "PUT" "/b" "x"),
     Op.call (newRequest "GET" "/a" "second")]

/-! ## Secret fingerprint (`internal/kibana/secret.go`) -/

/-- One element of a Go `[]byte`. -/
abbrev Byte := Fin 256

/-- The part of `core.Secret` that `calcSecretHashValue` reads: `Data`, a
`map[string][]byte`, as its entries in the order `range` visits them. The keys
of a Go map are pairwise distinct. -/
structure Secret where
  Data : List (String × List Byte)
deriving DecidableEq, Repr

/-- Lexicographic "less or equal" on lists of code units. -/
def codesLE : List Nat → List Nat → Bool
  | [], _ => true
  | _ :: _, [] => false
  | a :: as, b :: bs => decide (a < b) || (decide (a = b) && codesLE as bs)

/-- Go string comparison `a <= b`, which orders strings byte by byte. For
strings that hold UTF-8 text this is the order of their code point lists. -/
def stringLE (a b : String) : Bool :=
  codesLE (a.toList.map Char.toNat) (b.toList.map Char.toNat)

/-- The order `sort.Strings` sorts by. -/
def keyLE (a b : String) : Prop := stringLE a b = true

instance keyLE.decidable : DecidableRel keyLE := fun a b =>
  inferInstanceAs (Decidable (stringLE a b = true))

/-- Go `sort.Strings`: the ascending arrangement of the slice. -/
def sortStrings (keys : List String) : List String :=
  keys.insertionSort keyLE

/-- Index expression `secret.Data[key]`; a missing key gives the nil slice. -/
def Secret.get (secret : Secret) (key : String) : List Byte :=
  (secret.Data.lookup key).getD []

/-- The first loop of `calcSecretHashValue`: the keys in `range` order. -/
def hashKeys (secret : Secret) : List String :=
  secret.Data.foldl (fun keys entry => keys ++ [entry.1]) []

/-- The second loop of `calcSecretHashValue`: the values appended in the order
of the sorted keys. -/
def rawbytes (secret : Secret) : List Byte :=
  (sortStrings (hashKeys secret)).foldl (fun raw key => raw ++ secret.get key) []

/-- Go `calcSecretHashValue`, returning the Go pair `(fingerprint, error)` with
`none` for the nil error. `CalculateMD5Hash` is `utils.CalculateMD5Hash`
applied to `string(rawbytes)`: its Go result `(h, nil)` is `.ok h`, and a
result with a non-nil error is `.error err` (the string that comes with the
error is never read). `secret = none` is the nil pointer. -/
def calcSecretHashValue (CalculateMD5Hash : List Byte → Except GoError String)
    (secret : Option Secret) : String × Option GoError :=
  match secret with
  | none => ("", none)
  | some sec =>
    match CalculateMD5Hash (rawbytes sec) with
    | .error err => ("", some err)
    | .ok hashValue => (hashValue, none)

/-- The Go pair `calcSecretHashValue` returns for a result of the digest
function: the digest with a nil error, or the empty string with the error. -/
def hashResult : Except GoError String → String × Option GoError
  | .error err => ("", some err)
  | .ok hashValue => (hashValue, none)

/-- The field maps of two secrets have the same keys and the same value under
each key. -/
def SameData (r1 r2 : Secret) : Prop :=
  ∀ key : String, r1.Data.lookup key = r2.Data.lookup key

/-- The keys of the entry list are pairwise distinct. -/
def DistinctKeys {V : Type} (entries : List (String × V)) : Prop :=
  (entries.map Prod.fst).Nodup

instance DistinctKeys.decidable {V : Type} (entries : List (String × V)) :
    Decidable (DistinctKeys entries) :=
  inferInstanceAs (Decidable (entries.map Prod.fst).Nodup)

/-- A digest that spells every byte as one character. It never fails and
different inputs give different digests. -/
def spellDigest (bytes : List Byte) : Except GoError String :=
  .ok (String.mk (bytes.map (fun b => Char.ofNat b.val)))

/-! ## Fingerprint scenario data -/

/-- The record `{"a": "xy", "b": "z"}`. -/
def secretXyZ : Secret := { Data := [("a", [120, 121]), ("b", [122])] }

/-- The record `{"a": "x", "b": "yz"}`. -/
def secretXYz : Secret := { Data := [("a", [120]), ("b", [121, 122])] }

/-- The record `{"a": "xy", "b": "z"}` with its entries visited in the other
order. -/
def secretZXy : Secret := { Data := [("b", [122]), ("a", [120, 121])] }

/-- The list holds the keys of the record in ascending order: it is a
rearrangement of the keys of `secret.Data` that is sorted by Go string
comparison. -/
def AscendingKeysOf (secret : Secret) (keys : List String) : Prop :=
  keys.Perm (secret.Data.map Prod.fst) ∧ keys.Sorted keyLE

instance AscendingKeysOf.decidable (secret : Secret) (keys : List String) :
    Decidable (AscendingKeysOf secret keys) :=
  inferInstanceAs (Decidable (_ ∧ _))

/-- The record `{"c": "xyz"}`. -/
def secretXyz : Secret := { Data := [("c", [120, 121, 122])] }

/-- A digest function that fails on every input. -/
def failingDigest (_ : List Byte) : Except GoError String :=
  .error { msg := "write failed", ctx := [] }

/-! ## Secret extraction (`internal/kibana/secret.go`) -/

/-- A Go `error` value, not nil, as the extraction code meets it. -/
inductive Err where
  /-- An error made outside `kverrors` (an API status error, an I/O error).
  `notFound` is the answer of `apierrors.IsNotFound` for it. -/
  | status (notFound : Bool) (text : String)
  /-- The error built by `kverrors.New(msg, kv...)`. -/
  | new (info : GoError)
  /-- The error built by `kverrors.Wrap(cause, msg, kv...)` for a non-nil cause. -/
  | wrap (cause : Err) (info : GoError)
deriving DecidableEq, Repr

/-- The library function `kverrors.Root`: follows the causes to the innermost
error. -/
def Root : Err → Err
  | .wrap cause _ => Root cause
  | err => err

/-- The library function `apierrors.IsNotFound`, on an error that wraps
nothing. -/
def IsNotFound : Err → Bool
  | .status notFound _ => notFound
  | _ => false

/-- The context values that the `kverrors` layers of an error carry. -/
def ctxValues : Err → List CtxValue
  | .status _ _ => []
  | .new info => info.ctx.map Prod.snd
  | .wrap cause info => info.ctx.map Prod.snd ++ ctxValues cause

/-- Go `client.ObjectKey`. -/
structure ObjectKey where
  Namespace : String
  Name : String
deriving DecidableEq, Repr

/-- The fields `Name` and `Namespace` of `clusterRequest.cluster`. -/
structure Cluster where
  Name : String
  Namespace : String
deriving DecidableEq, Repr

/-- The parts of Go `KibanaRequest` that the extraction code uses. `secretGet`
is what `secret.Get(context.TODO(), clusterRequest.client, objKey)` returns
while the extraction runs: the secret, or the error. -/
structure KibanaRequest where
  cluster : Cluster
  secretGet : ObjectKey → Except Err Secret

/-- One line written through `clusterRequest.log`. -/
structure LogLine where
  msg : String
  ctx : List (String × CtxValue)
deriving DecidableEq, Repr

/-- What the extraction code acts on: the working directory as the file writer
sees it (of any type `σ`), and the lines logged so far. -/
structure Effects (σ : Type) where
  workdir : σ
  log : List LogLine

/-- The package variable `secretCertificates`, entries in source order. -/
def secretCertificates : List (String × List (String × String)) :=
  [("kibana",
      [("ca", "ca.crt"),
       ("key", "system.logging.kibana.key"),
       ("cert", "system.logging.kibana.crt")]),
   ("kibana-proxy",
      [("server-key", "kibana-internal.key"),
       ("server-cert", "kibana-internal.crt"),
       ("session-secret", "kibana-session-secret")])]

/-- Go `(*KibanaRequest).extractSecretToFile`. `write` is
`utils.WriteToWorkingDirFile`: from the working directory, a file name and the
bytes it gives the working directory afterwards and the error (`none` is nil).
Returns the effects and the error of the call. -/
def extractSecretToFile {σ : Type} (write : σ → String → List Byte → σ × Option Err)
    (clusterRequest : KibanaRequest) (st : Effects σ) (secretName key toFile : String) :
    Effects σ × Option Err :=
  let objKey : ObjectKey :=
    { Name := secretName, Namespace := clusterRequest.cluster.Namespace }
  match clusterRequest.secretGet objKey with
  | .error err =>
    if IsNotFound (Root err) then (st, some err)
    else
      (st, some (.wrap err
        { msg := "unable to extract secret to file"
          ctx := [("cluster", CtxValue.str clusterRequest.cluster.Name),
                  ("namespace", CtxValue.str clusterRequest.cluster.Namespace)] }))
  | .ok sec =>
    match sec.Data.lookup key with
    | none =>
      ({ st with log := st.log ++
          [{ msg := "no secret data found", ctx := [("key", CtxValue.str key)] }] }, none)
    | some value =>
      let written := write st.workdir toFile value
      ({ st with workdir := written.1 }, written.2)

/-- Go `(*KibanaRequest).extractCertificates`. `certs` lists the entries of the
map in the order the `range` loop visits them. -/
def extractCertificates {σ : Type} (write : σ → String → List Byte → σ × Option Err)
    (clusterRequest : KibanaRequest) (st : Effects σ) (secretName : String) :
    List (String × String) → Effects σ × Option Err
  | [] => (st, none)
  | (secretKey, certPath) :: rest =>
    match extractSecretToFile write clusterRequest st secretName secretKey certPath with
    | (st1, some err) =>
      (st1, some (.wrap err
        { msg := "failed to extract cert"
          ctx := [("key", CtxValue.str secretKey), ("cert_path", CtxValue.str certPath)] }))
    | (st1, none) => extractCertificates write clusterRequest st1 secretName rest

/-- Go `(*KibanaRequest).readSecrets`. `catalog` lists the entries of
`secretCertificates`, and of each inner map, in the order the `range` loops
visit them. -/
def readSecrets {σ : Type} (write : σ → String → List Byte → σ × Option Err)
    (clusterRequest : KibanaRequest) (st : Effects σ) :
    List (String × List (String × String)) → Effects σ × Option Err
  | [] => (st, none)
  | (secretName, certMap) :: rest =>
    match extractCertificates write clusterRequest st secretName certMap with
    | (st1, some err) =>
      (st1, some (.wrap err
        { msg := "failed to extract secret"
          ctx := [("secret_name", CtxValue.str secretName)] }))
    | (st1, none) => readSecrets write clusterRequest st1 rest

/-- The working directory: file name to content, `none` for "no such file". -/
abbrev WorkDir := GoMap (List Byte)

/-- Modelled from the spec: `utils.WriteToWorkingDirFile`, which is not among
the source files. The specification gives `writeFile(relativePath, bytes)` as
an overwrite of the whole file; this is the writer that succeeds. -/
def WriteToWorkingDirFile (dir : WorkDir) (toFile : String) (value : List Byte) :
    WorkDir × Option Err :=
  (dir.set toFile value, none)

/-- A file writer that only records its calls and answers `result` to each. -/
def recordingWriter (result : Option Err) (calls : List (String × List Byte))
    (toFile : String) (value : List Byte) : List (String × List Byte) × Option Err :=
  (calls ++ [(toFile, value)], result)

/-! ## Extraction scenario data -/

/-- The bytes of `AAA`. -/
def bytesAAA : List Byte := [65, 65, 65]

/-- The error of a store that does not have the secret. -/
def notFoundError : Err := .status true "secret not found"

/-- The error of a store that cannot be reached. -/
def unreachableError : Err := .status false "connection refused"

/-- A request for cluster `es` in namespace `logging` whose store holds the one
secret `kibana` with data `ca = AAA` and reports not-found for any other. -/
def kibanaOnly : KibanaRequest :=
  { cluster := { Name := "es", Namespace := "logging" }
    secretGet := fun objKey =>
      if objKey = { Namespace := "logging", Name := "kibana" } then
        .ok { Data := [("ca", bytesAAA)] }
      else .error notFoundError }

/-- A request for cluster `es` in namespace `logging` whose store has no secret. -/
def emptyStore : KibanaRequest :=
  { cluster := { Name := "es", Namespace := "logging" }
    secretGet := fun _ => .error notFoundError }

/-- A request for cluster `es` in namespace `logging` whose store cannot be
reached. -/
def brokenStore : KibanaRequest :=
  { cluster := { Name := "es", Namespace := "logging" }
    secretGet := fun _ => .error unreachableError }

/-- An empty working directory and an empty log. -/
def cleanStart : Effects WorkDir := { workdir := GoMap.empty, log := [] }

/-- A working directory in which `ca.crt` already holds the byte 1. -/
def staleStart : Effects WorkDir :=
  { workdir := (GoMap.empty : WorkDir).set "ca.crt" [1], log := [] }

/-- A request for cluster `es` in namespace `logging` whose store holds the
secret `kibana-proxy` with a server key and a server cert and no session
secret. -/
def proxyWithoutSession : KibanaRequest :=
  { cluster := { Name := "es", Namespace := "logging" }
    secretGet := fun objKey =>
      if objKey = { Namespace := "logging", Name := "kibana-proxy" } then
        .ok { Data := [("server-cert", [67]), ("server-key", [75])] }
      else .error notFoundError }

/-! ## Scripted responses in shared memory

The first model of the chatter holds every slice by value. Whether the caller's
table can change needs the sharing that Go really has: a slice is a header
over a backing array, a map is an object behind an address, and copying a slice
copies the header only. This second model of `NewFakeElasticsearchChatter` and
`GetResponse` keeps the backing arrays and the map objects in a memory.
`recordRequest` and the writes to the payload act on the counter, on the
capture table and on the caller's payload, none of which is response memory, so
in this model a simulated call is its `GetResponse`. -/

/-- A Go slice header of type `FakeElasticsearchResponses`: the address of the
backing array, the index of the first element and the length. -/
structure ResponseSlice where
  array : Nat
  offset : Nat
  len : Nat
deriving DecidableEq, Repr

/-- The Go memory that holds scripted responses: the backing arrays and the
objects of type `map[string]FakeElasticsearchResponses` by address (entries in
`range` order), and the address the next `make` returns. -/
structure Memory where
  arrays : Nat → List FakeElasticsearchResponse
  maps : Nat → List (String × ResponseSlice)
  nextMap : Nat

/-- The function that differs from `f` at the address `a` only. -/
def setAt {α : Type} (f : Nat → α) (a : Nat) (v : α) : Nat → α :=
  fun b => if b = a then v else f b

/-- Assignment `m[k] = v` on the entries of a map object. -/
def assign {V : Type} : List (String × V) → String → V → List (String × V)
  | [], k, v => [(k, v)]
  | e :: rest, k, v => if e.1 = k then (k, v) :: rest else e :: assign rest k v

/-- The elements a slice header stands for. -/
def sliceValue (mem : Memory) (sl : ResponseSlice) : FakeElasticsearchResponses :=
  ((mem.arrays sl.array).drop sl.offset).take sl.len

/-- The script a map object stands for: each key with the elements of its
slice. -/
def tableValue (mem : Memory) (table : Nat) : List (String × FakeElasticsearchResponses) :=
  (mem.maps table).map (fun entry => (entry.1, sliceValue mem entry.2))

/-- The field `Responses` of a chatter in memory: the address of its map. -/
structure MemChatter where
  Responses : Nat
deriving DecidableEq, Repr

namespace Mem

/-- Go `NewFakeElasticsearchChatter` on the memory, for the caller's table at
the address `responses`: `make` gives a new map object `fres`, and the loop
copies each slice header of the table into it. -/
def NewFakeElasticsearchChatter (mem : Memory) (responses : Nat) : Memory × MemChatter :=
  let fres := (mem.maps responses).foldl (fun fres entry => assign fres entry.1 entry.2) []
  ({ mem with maps := setAt mem.maps mem.nextMap fres, nextMap := mem.nextMap + 1 },
    { Responses := mem.nextMap })

/-- Go `(*FakeElasticsearchChatter).GetResponse` on the memory: `responses[0]`
reads the backing array, and `chat.Responses[key] = responses[1:]` stores a new
header in the chatter's map object. Nothing is stored in a backing array. -/
def GetResponse (mem : Memory) (chat : MemChatter) (key : String) :
    Memory × Outcome (Option FakeElasticsearchResponse × Bool) :=
  match (mem.maps chat.Responses).lookup key with
  | none => (mem, .ok (none, false))
  | some responses =>
    if responses.len = 0 then (mem, .indexOutOfRange)
    else
      match (mem.arrays responses.array)[responses.offset]? with
      | none => (mem, .indexOutOfRange)
      | some response =>
        let rest : ResponseSlice :=
          { responses with offset := responses.offset + 1, len := responses.len - 1 }
        let stored := assign (mem.maps chat.Responses) key rest
        ({ mem with maps := setAt mem.maps chat.Responses stored }, .ok (some response, true))

/-- The memory after one operation on the chatter. -/
def step (mem : Memory) (chat : MemChatter) : Op → Memory
  | .call payload => (GetResponse mem chat payload.URI).1
  | .getRequest _ => mem
  | .getResponse key => (GetResponse mem chat key).1

/-- The memory after a sequence of operations on the chatter. -/
def exec (mem : Memory) (chat : MemChatter) (ops : List Op) : Memory :=
  ops.foldl (fun m op => step m chat op) mem

/-- The results of `n` successive retrievals `chatter.GetResponse(key)`. -/
def getResponses (mem : Memory) (chat : MemChatter) (key : String) :
    Nat → List (Outcome (Option FakeElasticsearchResponse × Bool))
  | 0 => []
  | n + 1 =>
    (GetResponse mem chat key).2 :: getResponses (GetResponse mem chat key).1 chat key n

end Mem

/-- The memory after a chatter has been built from the caller's table at the
address `table` and the operations have been run on that chatter. -/
def afterFirstChatter (mem : Memory) (table : Nat) (ops : List Op) : Memory :=
  Mem.exec (Mem.NewFakeElasticsearchChatter mem table).1
    (Mem.NewFakeElasticsearchChatter mem table).2 ops

/-- The scripted-response table of the first model that a chatter in memory
stands for. -/
def viewResponses (mem : Memory) (chat : MemChatter) : GoMap FakeElasticsearchResponses :=
  fun key => ((mem.maps chat.Responses).lookup key).map (sliceValue mem)

/-- A memory with one backing array of two responses and the caller's table at
address 0, which gives `/a` both of them. -/
def sharedMemory : Memory :=
  { arrays := fun a =>
      if a = 0 then
        [{ Error := none, StatusCode := 200, Body := "first" },
         { Error := none, StatusCode := 404, Body := "second" }]
      else []
    maps := fun a => if a = 0 then [("/a", { array := 0, offset := 0, len := 2 })] else []
    nextMap := 1 }

/-- Two simulated calls to `/a`. -/
def twoCallsToA : List Op :=
  [Op.call (newRequest "GET" "/a" ""), Op.call (newRequest "GET" "/a" "")]

end EsOperator

namespace EsOperator

/-! ## Lemmas on Go maps -/

theorem GoMap.set_same {V : Type} (m : GoMap V) (k : String) (v : V) :
    (m.set k v) k = some v := by
  simp [GoMap.set]

theorem GoMap.set_other {V : Type} (m : GoMap V) (k j : String) (v : V) (h : j ≠ k) :
    (m.set k v) j = m j := by
  simp [GoMap.set, h]

/-! ## Effect of the single operations -/

theorem recordRequest_seqNo (chat : FakeElasticsearchChatter) (p : EsRequest) :
    (recordRequest chat p).seqNo = chat.seqNo + 1 := rfl

theorem recordRequest_Responses (chat : FakeElasticsearchChatter) (p : EsRequest) :
    (recordRequest chat p).Responses = chat.Responses := rfl

theorem recordRequest_Requests_same (chat : FakeElasticsearchChatter) (p : EsRequest) :
    (recordRequest chat p).Requests p.URI =
      some ((chat.Requests p.URI).getD [] ++
        [{ URI := p.URI, Method := p.Method, Body := p.RequestBody, SeqNo := chat.seqNo }]) := by
  simp [recordRequest, nextSeqNo, GoMap.set]

theorem recordRequest_Requests_other (chat : FakeElasticsearchChatter) (p : EsRequest)
    (k : String) (h : k ≠ p.URI) :
    (recordRequest chat p).Requests k = chat.Requests k := by
  simp [recordRequest, nextSeqNo, GoMap.set, h]

theorem GetResponse_seqNo (chat : FakeElasticsearchChatter) (k : String) :
    (GetResponse chat k).1.seqNo = chat.seqNo := by
  unfold GetResponse
  split <;> rfl

theorem GetResponse_Requests (chat : FakeElasticsearchChatter) (k : String) :
    (GetResponse chat k).1.Requests = chat.Requests := by
  unfold GetResponse
  split <;> rfl

theorem GetResponse_Responses_other (chat : FakeElasticsearchChatter) (k j : String)
    (h : j ≠ k) : (GetResponse chat k).1.Responses j = chat.Responses j := by
  unfold GetResponse
  split
  · rfl
  · rfl
  · exact GoMap.set_other _ _ _ _ h

theorem GetRequest_seqNo (chat : FakeElasticsearchChatter) (k : String) :
    (GetRequest chat k).1.seqNo = chat.seqNo := by
  unfold GetRequest
  split <;> rfl

theorem GetRequest_Responses (chat : FakeElasticsearchChatter) (k : String) :
    (GetRequest chat k).1.Responses = chat.Responses := by
  unfold GetRequest
  split <;> rfl

theorem GetRequest_Requests_other (chat : FakeElasticsearchChatter) (k j : String)
    (h : j ≠ k) : (GetRequest chat k).1.Requests j = chat.Requests j := by
  unfold GetRequest
  split
  · rfl
  · rfl
  · exact GoMap.set_other _ _ _ _ h

/-- The chatter left in memory by a simulated call is the one left by
`GetResponse` after `recordRequest`, whatever the outcome of the call. -/
theorem send_chatter (unmarshal : String → Option JsonObject × Option GoError)
    (chat : FakeElasticsearchChatter) (p : EsRequest) :
    (NewFakeSendRequestFn unmarshal chat p).1 =
      (GetResponse (recordRequest chat p) p.URI).1 := by
  unfold NewFakeSendRequestFn
  simp only
  split <;> simp_all

theorem send_seqNo (unmarshal : String → Option JsonObject × Option GoError)
    (chat : FakeElasticsearchChatter) (p : EsRequest) :
    (NewFakeSendRequestFn unmarshal chat p).1.seqNo = chat.seqNo + 1 := by
  rw [send_chatter, GetResponse_seqNo, recordRequest_seqNo]

theorem send_Requests_same (unmarshal : String → Option JsonObject × Option GoError)
    (chat : FakeElasticsearchChatter) (p : EsRequest) :
    (NewFakeSendRequestFn unmarshal chat p).1.Requests p.URI =
      some ((chat.Requests p.URI).getD [] ++
        [{ URI := p.URI, Method := p.Method, Body := p.RequestBody, SeqNo := chat.seqNo }]) := by
  rw [send_chatter, GetResponse_Requests, recordRequest_Requests_same]

theorem send_Requests_other (unmarshal : String → Option JsonObject × Option GoError)
    (chat : FakeElasticsearchChatter) (p : EsRequest) (k : String) (h : k ≠ p.URI) :
    (NewFakeSendRequestFn unmarshal chat p).1.Requests k = chat.Requests k := by
  rw [send_chatter, GetResponse_Requests, recordRequest_Requests_other _ _ _ h]

theorem send_Responses_other (unmarshal : String → Option JsonObject × Option GoError)
    (chat : FakeElasticsearchChatter) (p : EsRequest) (k : String) (h : k ≠ p.URI) :
    (NewFakeSendRequestFn unmarshal chat p).1.Responses k = chat.Responses k := by
  rw [send_chatter, GetResponse_Responses_other _ _ _ h, recordRequest_Responses]

/-- A simulated call to an endpoint whose scripted queue is not empty pops the
head of the queue and copies it into the payload. -/
theorem send_scripted (unmarshal : String → Option JsonObject × Option GoError)
    (chat : FakeElasticsearchChatter) (p : EsRequest) (r : FakeElasticsearchResponse)
    (rest : FakeElasticsearchResponses) (h : chat.Responses p.URI = some (r :: rest)) :
    (NewFakeSendRequestFn unmarshal chat p).2 =
        .ok { p with
          Error := r.Error
          StatusCode := r.StatusCode
          RawResponseBody := r.Body
          ResponseBody := BodyAsResponseBody unmarshal r } ∧
      (NewFakeSendRequestFn unmarshal chat p).1.Responses p.URI = some rest := by
  have h1 : (recordRequest chat p).Responses p.URI = some (r :: rest) := by
    rw [recordRequest_Responses]; exact h
  simp [NewFakeSendRequestFn, GetResponse, h1, GoMap.set]

/-- A simulated call to an endpoint whose scripted queue is present but empty
panics in `GetResponse`. -/
theorem send_exhausted (unmarshal : String → Option JsonObject × Option GoError)
    (chat : FakeElasticsearchChatter) (p : EsRequest)
    (h : chat.Responses p.URI = some []) :
    (NewFakeSendRequestFn unmarshal chat p).2 = .indexOutOfRange := by
  have h1 : (recordRequest chat p).Responses p.URI = some [] := by
    rw [recordRequest_Responses]; exact h
  simp [NewFakeSendRequestFn, GetResponse, h1]

/-- A simulated call to an endpoint with no entry in the scripted table returns
with the synthetic error and leaves the table as it was. -/
theorem send_unscripted (unmarshal : String → Option JsonObject × Option GoError)
    (chat : FakeElasticsearchChatter) (p : EsRequest)
    (h : chat.Responses p.URI = none) :
    (NewFakeSendRequestFn unmarshal chat p).2 =
        .ok { p with Error := some (noFakeResponseError p) } ∧
      (NewFakeSendRequestFn unmarshal chat p).1.Responses = chat.Responses := by
  have h1 : (recordRequest chat p).Responses p.URI = none := by
    rw [recordRequest_Responses]; exact h
  simp [NewFakeSendRequestFn, GetResponse, h1, recordRequest_Responses]

/-! ## The freshly built chatter -/

theorem foldl_set_absent {V : Type} (entries : List (String × V)) (m : GoMap V) (k : String)
    (h : k ∉ entries.map Prod.fst) :
    (entries.foldl (fun fres entry => fres.set entry.1 entry.2) m) k = m k := by
  induction entries generalizing m with
  | nil => rfl
  | cons e rest ih =>
    simp only [List.map_cons, List.mem_cons, not_or] at h
    rw [List.foldl_cons, ih _ h.2]
    exact GoMap.set_other _ _ _ _ h.1

theorem foldl_set_present {V : Type} (entries : List (String × V)) (m : GoMap V) (k : String)
    (v : V) (hnd : DistinctKeys entries) (hmem : (k, v) ∈ entries) :
    (entries.foldl (fun fres entry => fres.set entry.1 entry.2) m) k = some v := by
  induction entries generalizing m with
  | nil => simp at hmem
  | cons e rest ih =>
    have hnd2 : e.1 ∉ rest.map Prod.fst ∧ DistinctKeys rest := by
      simpa [DistinctKeys] using hnd
    rw [List.foldl_cons]
    rcases List.mem_cons.1 hmem with heq | hin
    · subst heq
      rw [foldl_set_absent _ _ _ hnd2.1]
      exact GoMap.set_same _ _ _
    · exact ih _ hnd2.2 hin

/-- The fresh chatter holds, for each endpoint of the script, its responses. -/
theorem fresh_Responses (script : List (String × FakeElasticsearchResponses)) (k : String)
    (rs : FakeElasticsearchResponses) (hnd : DistinctKeys script) (hmem : (k, rs) ∈ script) :
    (NewFakeElasticsearchChatter script).Responses k = some rs :=
  foldl_set_present script GoMap.empty k rs hnd hmem

theorem fresh_seqNo (script : List (String × FakeElasticsearchResponses)) :
    (NewFakeElasticsearchChatter script).seqNo = 1 := rfl

theorem fresh_Requests (script : List (String × FakeElasticsearchResponses)) (k : String) :
    (NewFakeElasticsearchChatter script).Requests k = none := rfl

/-! ## Sequences of operations -/

theorem exec_nil (unmarshal : String → Option JsonObject × Option GoError)
    (chat : FakeElasticsearchChatter) : exec unmarshal chat [] = chat := rfl

theorem exec_cons (unmarshal : String → Option JsonObject × Option GoError)
    (chat : FakeElasticsearchChatter) (op : Op) (ops : List Op) :
    exec unmarshal chat (op :: ops) = exec unmarshal (step unmarshal chat op) ops := rfl

theorem exec_append (unmarshal : String → Option JsonObject × Option GoError)
    (chat : FakeElasticsearchChatter) (ops1 ops2 : List Op) :
    exec unmarshal chat (ops1 ++ ops2) = exec unmarshal (exec unmarshal chat ops1) ops2 := by
  simp [exec, List.foldl_append]

theorem step_seqNo (unmarshal : String → Option JsonObject × Option GoError)
    (chat : FakeElasticsearchChatter) (op : Op) :
    (step unmarshal chat op).seqNo = chat.seqNo + (if op.isCall then 1 else 0) := by
  cases op with
  | call p => simp [step, Op.isCall, send_seqNo]
  | getRequest k => simp [step, Op.isCall, GetRequest_seqNo]
  | getResponse k => simp [step, Op.isCall, GetResponse_seqNo]

/-- The counter after a sequence of operations has grown by the number of
simulated calls in it. -/
theorem exec_seqNo (unmarshal : String → Option JsonObject × Option GoError)
    (chat : FakeElasticsearchChatter) (ops : List Op) :
    (exec unmarshal chat ops).seqNo = chat.seqNo + (numCalls ops : Int) := by
  induction ops generalizing chat with
  | nil => simp [exec, numCalls]
  | cons op rest ih =>
    rw [exec_cons, ih, step_seqNo]
    cases h : op.isCall
    · simp [numCalls, List.filter_cons, h]
    · simp [numCalls, List.filter_cons, h]
      omega

/-- Calls to `k` consume the scripted queue of `k` from the front, one response
each, and calls to other endpoints leave it alone. -/
theorem exec_calls_Responses (unmarshal : String → Option JsonObject × Option GoError)
    (k : String) (ps : List EsRequest) (chat : FakeElasticsearchChatter)
    (q : FakeElasticsearchResponses) (hq : chat.Responses k = some q)
    (hle : ps.countP (fun p => p.URI = k) ≤ q.length) :
    (exec unmarshal chat (ps.map Op.call)).Responses k =
      some (q.drop (ps.countP (fun p => p.URI = k))) := by
  induction ps generalizing chat q with
  | nil => simpa [exec] using hq
  | cons p rest ih =>
    rw [List.map_cons, exec_cons]
    by_cases hp : p.URI = k
    · rw [List.countP_cons_of_pos _ _ (by simpa using hp)] at hle ⊢
      cases q with
      | nil => simp at hle
      | cons r q1 =>
        have hq1 : (step unmarshal chat (Op.call p)).Responses k = some q1 := by
          subst hp
          exact (send_scripted unmarshal chat p r q1 hq).2
        rw [ih _ q1 hq1 (by simpa using hle)]
        simp
    · rw [List.countP_cons_of_neg _ _ (by simpa using hp)] at hle ⊢
      have hq1 : (step unmarshal chat (Op.call p)).Responses k = some q := by
        have := send_Responses_other unmarshal chat p k (fun h => hp h.symm)
        simpa [step, hq] using this
      exact ih _ q hq1 hle

/-! ## The capture-table invariant -/

theorem captureInv_fresh (script : List (String × FakeElasticsearchResponses)) :
    CaptureInv (NewFakeElasticsearchChatter script) := by
  refine ⟨by simp [fresh_seqNo], ?_⟩
  intro k q hq
  simp [fresh_Requests] at hq

theorem captureInv_send (unmarshal : String → Option JsonObject × Option GoError)
    (chat : FakeElasticsearchChatter) (p : EsRequest) (h : CaptureInv chat) :
    CaptureInv (NewFakeSendRequestFn unmarshal chat p).1 := by
  obtain ⟨hpos, hq⟩ := h
  refine ⟨by rw [send_seqNo]; omega, ?_⟩
  intro k q hk
  rw [send_seqNo]
  by_cases hkp : k = p.URI
  · subst hkp
    rw [send_Requests_same] at hk
    injection hk with hk
    subst hk
    have hold : (∀ c ∈ (chat.Requests p.URI).getD [], 1 ≤ c.SeqNo ∧ c.SeqNo < chat.seqNo ∧
        c.URI = p.URI) ∧ SeqIncreasing ((chat.Requests p.URI).getD []) := by
      cases hc : chat.Requests p.URI with
      | none => simp [SeqIncreasing]
      | some old => simpa using hq _ old hc
    constructor
    · intro c hc
      rcases List.mem_append.1 hc with hc | hc
      · have := hold.1 c hc
        exact ⟨this.1, by omega, this.2.2⟩
      · simp only [List.mem_singleton] at hc
        subst hc
        exact ⟨hpos, by simp, rfl⟩
    · unfold SeqIncreasing
      rw [List.pairwise_append]
      refine ⟨hold.2, List.pairwise_singleton _ _, ?_⟩
      intro a ha b hb
      simp only [List.mem_singleton] at hb
      subst hb
      exact (hold.1 a ha).2.1
  · rw [send_Requests_other _ _ _ _ hkp] at hk
    have := hq k q hk
    refine ⟨fun c hc => ?_, this.2⟩
    have hc1 := this.1 c hc
    exact ⟨hc1.1, by omega, hc1.2.2⟩

theorem captureInv_GetRequest (chat : FakeElasticsearchChatter) (key : String)
    (h : CaptureInv chat) : CaptureInv (GetRequest chat key).1 := by
  obtain ⟨hpos, hq⟩ := h
  refine ⟨by rw [GetRequest_seqNo]; exact hpos, ?_⟩
  intro k q hk
  rw [GetRequest_seqNo]
  by_cases hkk : k = key
  · subst hkk
    unfold GetRequest at hk
    split at hk
    · exact hq k q hk
    · exact hq k q hk
    · rename_i request rest hreq
      simp only [GoMap.set_same] at hk
      injection hk with hk
      subst hk
      have := hq k _ hreq
      refine ⟨fun c hc => this.1 c (List.mem_cons_of_mem _ hc), ?_⟩
      exact (List.pairwise_cons.1 this.2).2
  · rw [GetRequest_Requests_other _ _ _ hkk] at hk
    exact hq k q hk

theorem captureInv_GetResponse (chat : FakeElasticsearchChatter) (key : String)
    (h : CaptureInv chat) : CaptureInv (GetResponse chat key).1 := by
  unfold CaptureInv
  rw [GetResponse_seqNo, GetResponse_Requests]
  exact h

theorem captureInv_exec (unmarshal : String → Option JsonObject × Option GoError)
    (chat : FakeElasticsearchChatter) (ops : List Op) (h : CaptureInv chat) :
    CaptureInv (exec unmarshal chat ops) := by
  induction ops generalizing chat with
  | nil => exact h
  | cons op rest ih =>
    rw [exec_cons]
    apply ih
    cases op with
    | call p => exact captureInv_send unmarshal chat p h
    | getRequest k => exact captureInv_GetRequest chat k h
    | getResponse k => exact captureInv_GetResponse chat k h

theorem captureInv_of_reachable (chat : FakeElasticsearchChatter) (h : Reachable chat) :
    CaptureInv chat := by
  obtain ⟨unmarshal, script, ops, rfl⟩ := h
  exact captureInv_exec unmarshal _ ops (captureInv_fresh script)

/-! ## Successive retrievals -/

theorem getRequests_all (key : String) (q : FakeElasticsearchRequests)
    (chat : FakeElasticsearchChatter) (h : chat.Requests key = some q) :
    (getRequests chat key q.length).2 = q.map (fun c => Outcome.ok (some c, true)) ∧
      (getRequests chat key q.length).1.Requests key = some [] := by
  induction q generalizing chat with
  | nil => simpa [getRequests] using h
  | cons c rest ih =>
    have h1 : GetRequest chat key =
        ({ chat with Requests := chat.Requests.set key rest }, .ok (some c, true)) := by
      simp [GetRequest, h]
    have h2 := ih { chat with Requests := chat.Requests.set key rest } (GoMap.set_same _ _ _)
    simp only [List.length_cons, getRequests, h1, List.map_cons]
    exact ⟨by rw [h2.1], h2.2⟩

/-! ## Claims on the fake transport -/

/-- C1. The claim says the call after the last scripted response returns with
the synthetic error. In the code it does not return: on the chatter built from
a script that gives endpoint `k` the responses `rs`, after simulated calls of
which as many went to `k` as `rs` is long (calls to other endpoints may be
mixed in), the queue stored under `k` is an empty slice that is still present
in the table, and the next call to `k` panics with an index out of range
inside `GetResponse`. -/
theorem exhausted_endpoint_call_panics (unmarshal : String → Option JsonObject × Option GoError)
    (script : List (String × FakeElasticsearchResponses)) (k : String)
    (rs : FakeElasticsearchResponses) (ps : List EsRequest) (p : EsRequest)
    (hnd : DistinctKeys script) (hmem : (k, rs) ∈ script)
    (hcount : ps.countP (fun q => q.URI = k) = rs.length) (hp : p.URI = k) :
    (NewFakeSendRequestFn unmarshal
      (exec unmarshal (NewFakeElasticsearchChatter script) (ps.map Op.call)) p).2 =
        .indexOutOfRange := by
  have h := exec_calls_Responses unmarshal k ps (NewFakeElasticsearchChatter script) rs
    (fresh_Responses script k rs hnd hmem) (Nat.le_of_eq hcount)
  rw [hcount, List.drop_length] at h
  subst hp
  exact send_exhausted unmarshal _ p h

/-- C1, search scenario: the script holds one response for `/idx/_search`; the
first call returns it, the second call panics. -/
theorem exhausted_endpoint_call_panics_witness :
    DistinctKeys searchScript ∧ ("/idx/_search", [searchResponse]) ∈ searchScript ∧
    (NewFakeSendRequestFn decodeEmpty (NewFakeElasticsearchChatter searchScript)
      searchRequest).2 =
        .ok { searchRequest with
          StatusCode := 200, RawResponseBody := "\x7b\x7d", ResponseBody := some [] } ∧
    (NewFakeSendRequestFn decodeEmpty
      (exec decodeEmpty (NewFakeElasticsearchChatter searchScript)
        ([searchRequest].map Op.call)) searchRequest).2 = .indexOutOfRange :=
  ⟨by decide, by decide, by decide,
    exhausted_endpoint_call_panics decodeEmpty searchScript "/idx/_search" [searchResponse]
      [searchRequest] searchRequest (by decide) (by decide) (by decide) rfl⟩

/-- C2. The claim says that after the queued calls of `k` have been retrieved
the next `GetRequest(k)` returns not-found. In the code the retrievals of the
queued calls do each return `found = true`, but they leave an empty slice under
`k`, and the next `GetRequest(k)` panics with an index out of range. -/
theorem drained_queue_GetRequest_panics (chat : FakeElasticsearchChatter) (k : String)
    (q : FakeElasticsearchRequests) (h : chat.Requests k = some q) :
    (getRequests chat k q.length).2 = q.map (fun c => Outcome.ok (some c, true)) ∧
      (GetRequest (getRequests chat k q.length).1 k).2 = .indexOutOfRange := by
  have h1 := getRequests_all k q chat h
  refine ⟨h1.1, ?_⟩
  simp [GetRequest, h1.2]

/-- C2, one captured call to `/a`: the first retrieval returns it, the second
retrieval panics. -/
theorem drained_queue_GetRequest_panics_witness :
    oneCaptured.Requests "/a" =
      some [{ URI := "/a", Method := "GET", Body := "", SeqNo := 1 }] ∧
    (GetRequest oneCaptured "/a").2 =
      .ok (some { URI := "/a", Method := "GET", Body := "", SeqNo := 1 }, true) ∧
    (GetRequest (GetRequest oneCaptured "/a").1 "/a").2 = .indexOutOfRange :=
  ⟨by decide, by decide,
    (drained_queue_GetRequest_panics oneCaptured "/a"
      [{ URI := "/a", Method := "GET", Body := "", SeqNo := 1 }] (by decide)).2⟩

/-- C5. On a chatter built by `NewFakeElasticsearchChatter`, after any sequence
of simulated calls and retrievals that holds `n - 1` simulated calls, the next
simulated call is appended to the capture queue of its URI with `SeqNo = n`.
In particular a call to `/a` followed by a call to `/b` is captured with
sequence numbers 1 and 2. -/
theorem nth_call_has_SeqNo_n (unmarshal : String → Option JsonObject × Option GoError)
    (script : List (String × FakeElasticsearchResponses)) (ops : List Op) (p : EsRequest)
    (ma ba mb bb : String) :
    (exec unmarshal (NewFakeElasticsearchChatter script) (ops ++ [Op.call p])).Requests p.URI =
      some (((exec unmarshal (NewFakeElasticsearchChatter script) ops).Requests p.URI).getD [] ++
        [{ URI := p.URI, Method := p.Method, Body := p.RequestBody,
           SeqNo := (numCalls ops : Int) + 1 }]) ∧
    (exec unmarshal (NewFakeElasticsearchChatter script)
        [Op.call (newRequest ma "/a" ba), Op.call (newRequest mb "/b" bb)]).Requests "/a" =
      some [{ URI := "/a", Method := ma, Body := ba, SeqNo := 1 }] ∧
    (exec unmarshal (NewFakeElasticsearchChatter script)
        [Op.call (newRequest ma "/a" ba), Op.call (newRequest mb "/b" bb)]).Requests "/b" =
      some [{ URI := "/b", Method := mb, Body := bb, SeqNo := 2 }] := by
  have key : ∀ (ops : List Op) (p : EsRequest),
      (exec unmarshal (NewFakeElasticsearchChatter script) (ops ++ [Op.call p])).Requests p.URI =
      some (((exec unmarshal (NewFakeElasticsearchChatter script) ops).Requests p.URI).getD [] ++
        [{ URI := p.URI, Method := p.Method, Body := p.RequestBody,
           SeqNo := (numCalls ops : Int) + 1 }]) := by
    intro ops p
    rw [exec_append, exec_cons, exec_nil]
    simp only [step]
    rw [send_Requests_same, exec_seqNo, fresh_seqNo, add_comm]
  refine ⟨key ops p, ?_, ?_⟩
  · show (NewFakeSendRequestFn unmarshal
        (NewFakeSendRequestFn unmarshal (NewFakeElasticsearchChatter script)
          (newRequest ma "/a" ba)).1 (newRequest mb "/b" bb)).1.Requests "/a" = _
    rw [send_Requests_other unmarshal _ (newRequest mb "/b" bb) "/a"
      (by show "/a" ≠ "/b"; decide)]
    exact send_Requests_same unmarshal (NewFakeElasticsearchChatter script)
      (newRequest ma "/a" ba)
  · have h1 : (NewFakeSendRequestFn unmarshal
        (NewFakeSendRequestFn unmarshal (NewFakeElasticsearchChatter script)
          (newRequest ma "/a" ba)).1 (newRequest mb "/b" bb)).1.Requests "/b" =
        some (((NewFakeSendRequestFn unmarshal (NewFakeElasticsearchChatter script)
          (newRequest ma "/a" ba)).1.Requests "/b").getD [] ++
          [{ URI := "/b", Method := mb, Body := bb,
             SeqNo := (NewFakeSendRequestFn unmarshal (NewFakeElasticsearchChatter script)
               (newRequest ma "/a" ba)).1.seqNo }]) :=
      send_Requests_same unmarshal _ (newRequest mb "/b" bb)
    rw [send_Requests_other unmarshal _ (newRequest ma "/a" ba) "/b"
      (by show "/b" ≠ "/a"; decide), send_seqNo] at h1
    exact h1

/-- C6. On the chatter built from a script that gives endpoint `k` the
responses `rs`, after any sequence of simulated calls of which `i` went to `k`,
with `i < rs.length`, the next call to `k` returns with the payload's `Error`,
`StatusCode` and `RawResponseBody` set to those of `rs[i]`, however many calls
to other endpoints came before. A simulated call never changes the scripted
queue of an endpoint other than its own. -/
theorem ith_call_gets_ith_response (unmarshal : String → Option JsonObject × Option GoError)
    (script : List (String × FakeElasticsearchResponses)) (k : String)
    (rs : FakeElasticsearchResponses) (ps : List EsRequest) (p : EsRequest)
    (hnd : DistinctKeys script) (hmem : (k, rs) ∈ script) (hp : p.URI = k)
    (hlt : ps.countP (fun q => q.URI = k) < rs.length) :
    (∃ (r : FakeElasticsearchResponse) (out : EsRequest),
      rs[ps.countP (fun q => q.URI = k)]? = some r ∧
      (NewFakeSendRequestFn unmarshal
        (exec unmarshal (NewFakeElasticsearchChatter script) (ps.map Op.call)) p).2 = .ok out ∧
      out.Error = r.Error ∧ out.StatusCode = r.StatusCode ∧ out.RawResponseBody = r.Body) ∧
    (∀ (chat : FakeElasticsearchChatter) (q : EsRequest) (j : String), j ≠ q.URI →
      (NewFakeSendRequestFn unmarshal chat q).1.Responses j = chat.Responses j) := by
  refine ⟨?_, fun chat q j hj => send_Responses_other unmarshal chat q j hj⟩
  have h := exec_calls_Responses unmarshal k ps (NewFakeElasticsearchChatter script) rs
    (fresh_Responses script k rs hnd hmem) (Nat.le_of_lt hlt)
  obtain ⟨r, rest, hdrop⟩ : ∃ r rest, rs.drop (ps.countP (fun q => q.URI = k)) = r :: rest := by
    cases hd : rs.drop (ps.countP (fun q => q.URI = k)) with
    | nil =>
      have := List.drop_eq_nil_iff.1 hd
      omega
    | cons r rest => exact ⟨r, rest, rfl⟩
  have hget : rs[ps.countP (fun q => q.URI = k)]? = some r := by
    have := List.head?_drop rs (ps.countP (fun q => q.URI = k))
    rw [hdrop] at this
    simpa using this.symm
  rw [hdrop] at h
  subst hp
  have hs := (send_scripted unmarshal _ p r rest h).1
  exact ⟨r, _, hget, hs, rfl, rfl, rfl⟩

/-- C6, two endpoints: after a call to `/a` and a call to `/b`, the second call
to `/a` gets the second response scripted for `/a`. -/
theorem ith_call_gets_ith_response_witness :
    DistinctKeys twoEndpointScript ∧
    (∃ (r : FakeElasticsearchResponse) (out : EsRequest),
      ([{ Error := none, StatusCode := 200, Body := "\x7b\x7d" },
        { Error := none, StatusCode := 404, Body := "gone" }] : FakeElasticsearchResponses)[
          [newRequest "GET" "/a" "", newRequest "GET" "/b" ""].countP
            (fun q => q.URI = "/a")]? = some r ∧
      (NewFakeSendRequestFn decodeEmpty
        (exec decodeEmpty (NewFakeElasticsearchChatter twoEndpointScript)
          ([newRequest "GET" "/a" "", newRequest "GET" "/b" ""].map Op.call))
        (newRequest "GET" "/a" "")).2 = .ok out ∧
      out.Error = r.Error ∧ out.StatusCode = r.StatusCode ∧ out.RawResponseBody = r.Body) ∧
    (NewFakeSendRequestFn decodeEmpty
        (exec decodeEmpty (NewFakeElasticsearchChatter twoEndpointScript)
          ([newRequest "GET" "/a" "", newRequest "GET" "/b" ""].map Op.call))
        (newRequest "GET" "/a" "")).2 =
      .ok { newRequest "GET" "/a" "" with
        StatusCode := 404, RawResponseBody := "gone"
        ResponseBody := some [("results", JsonValue.string "gone")] } :=
  ⟨by decide,
    (ith_call_gets_ith_response decodeEmpty twoEndpointScript "/a"
      [{ Error := none, StatusCode := 200, Body := "\x7b\x7d" },
       { Error := none, StatusCode := 404, Body := "gone" }]
      [newRequest "GET" "/a" "", newRequest "GET" "/b" ""] (newRequest "GET" "/a" "")
      (by decide) (by decide) rfl (by decide)).1,
    by decide⟩

/-- C7. A simulated call, whatever its outcome, leaves in the capture table
the queue of its own URI extended at the end by exactly one request carrying
the payload's URI, Method and RequestBody (and the counter's value as SeqNo);
the entries queued before are kept in place, and the queue of every other key
is unchanged. -/
theorem call_appends_one_capture (unmarshal : String → Option JsonObject × Option GoError)
    (chat : FakeElasticsearchChatter) (p : EsRequest) :
    (NewFakeSendRequestFn unmarshal chat p).1.Requests p.URI =
      some ((chat.Requests p.URI).getD [] ++
        [{ URI := p.URI, Method := p.Method, Body := p.RequestBody, SeqNo := chat.seqNo }]) ∧
    (∀ k : String, k ≠ p.URI →
      (NewFakeSendRequestFn unmarshal chat p).1.Requests k = chat.Requests k) :=
  ⟨send_Requests_same unmarshal chat p, fun k hk => send_Requests_other unmarshal chat p k hk⟩

/-- C8. When the capture queue of `k` is `c :: cs`, `GetRequest(k)` returns `c`
with `found = true` and leaves `cs` under `k`; as many successive retrievals as
the queue is long return its requests in queue order, each once; and on a
chatter reachable from a fresh one the queue order is that of strictly
increasing SeqNo. -/
theorem GetRequest_pops_in_capture_order (chat : FakeElasticsearchChatter) (k : String)
    (c : FakeElasticsearchRequest) (cs : FakeElasticsearchRequests)
    (h : chat.Requests k = some (c :: cs)) :
    (GetRequest chat k).2 = .ok (some c, true) ∧
    (GetRequest chat k).1.Requests k = some cs ∧
    (getRequests chat k (c :: cs).length).2 =
      (c :: cs).map (fun x => Outcome.ok (some x, true)) ∧
    (Reachable chat → SeqIncreasing (c :: cs)) := by
  refine ⟨by simp [GetRequest, h], by simp [GetRequest, h, GoMap.set], ?_, ?_⟩
  · exact (getRequests_all k (c :: cs) chat h).1
  · intro hr
    exact ((captureInv_of_reachable chat hr).2 k _ h).2

/-- C8, two calls to `/a` around a call to `/b`: the retrievals for `/a` return
the calls numbered 1 and 3, in that order. -/
theorem GetRequest_pops_in_capture_order_witness :
    threeCaptured.Requests "/a" =
      some [{ URI := "/a", Method := "GET", Body := "first", SeqNo := 1 },
            { URI := "/a", Method := "GET", Body := "second", SeqNo := 3 }] ∧
    Reachable threeCaptured ∧
    (GetRequest threeCaptured "/a").2 =
      .ok (some { URI := "/a", Method := "GET", Body := "first", SeqNo := 1 }, true) ∧
    (getRequests threeCaptured "/a" 2).2 =
      [.ok (some { URI := "/a", Method := "GET", Body := "first", SeqNo := 1 }, true),
       .ok (some { URI := "/a", Method := "GET", Body := "second", SeqNo := 3 }, true)] ∧
    SeqIncreasing [{ URI := "/a", Method := "GET", Body := "first", SeqNo := 1 },
                   { URI := "/a", Method := "GET", Body := "second", SeqNo := 3 }] :=
  have hthm := GetRequest_pops_in_capture_order threeCaptured "/a"
    { URI := "/a", Method := "GET", Body := "first", SeqNo := 1 }
    [{ URI := "/a", Method := "GET", Body := "second", SeqNo := 3 }] (by decide)
  have hreach : Reachable threeCaptured := ⟨decodeEmpty, [], _, rfl⟩
  ⟨by decide, hreach, hthm.1, hthm.2.2.1, hthm.2.2.2 hreach⟩

/-- C9. A simulated call to an endpoint with no entry in the scripted-response
table returns with `payload.Error` set to the synthetic "No fake response found
for uri" error, every other field of the payload (StatusCode, RawResponseBody
and ResponseBody among them) as it was, and the scripted-response table
unchanged. -/
theorem unscripted_call_sets_synthetic_error (unmarshal : String → Option JsonObject × Option GoError)
    (chat : FakeElasticsearchChatter) (p : EsRequest) (h : chat.Responses p.URI = none) :
    (∃ out : EsRequest, (NewFakeSendRequestFn unmarshal chat p).2 = .ok out ∧
      out.Error = some { msg := "No fake response found for uri"
                         ctx := [("uri", CtxValue.str p.URI),
                                 ("payload", CtxValue.request p.URI p.Method p.RequestBody)] } ∧
      out.StatusCode = p.StatusCode ∧ out.RawResponseBody = p.RawResponseBody ∧
      out.ResponseBody = p.ResponseBody ∧
      out.URI = p.URI ∧ out.Method = p.Method ∧ out.RequestBody = p.RequestBody) ∧
    (NewFakeSendRequestFn unmarshal chat p).1.Responses = chat.Responses := by
  have hs := send_unscripted unmarshal chat p h
  exact ⟨⟨_, hs.1, rfl, rfl, rfl, rfl, rfl, rfl, rfl⟩, hs.2⟩

/-- C9, a fresh chatter with the search script and a call to `/other`. -/
theorem unscripted_call_sets_synthetic_error_witness :
    (NewFakeElasticsearchChatter searchScript).Responses "/other" = none ∧
    (NewFakeSendRequestFn decodeEmpty (NewFakeElasticsearchChatter searchScript)
      { newRequest "GET" "/other" "q" with StatusCode := 7, RawResponseBody := "old" }).2 =
      .ok { newRequest "GET" "/other" "q" with
        StatusCode := 7, RawResponseBody := "old"
        Error := some { msg := "No fake response found for uri"
                        ctx := [("uri", CtxValue.str "/other"),
                                ("payload", CtxValue.request "/other" "GET" "q")] } } ∧
    (NewFakeSendRequestFn decodeEmpty (NewFakeElasticsearchChatter searchScript)
      { newRequest "GET" "/other" "q" with StatusCode := 7, RawResponseBody := "old" }).1.Responses
      = (NewFakeElasticsearchChatter searchScript).Responses :=
  ⟨by decide, by decide,
    (unscripted_call_sets_synthetic_error decodeEmpty (NewFakeElasticsearchChatter searchScript)
      { newRequest "GET" "/other" "q" with StatusCode := 7, RawResponseBody := "old" }
      (by decide)).2⟩

/-! ## The order `sort.Strings` sorts by -/

theorem codesLE_total (a b : List Nat) : codesLE a b = true ∨ codesLE b a = true := by
  induction a generalizing b with
  | nil => simp [codesLE]
  | cons x xs ih =>
    cases b with
    | nil => simp [codesLE]
    | cons y ys =>
      simp only [codesLE, Bool.or_eq_true, Bool.and_eq_true, decide_eq_true_eq]
      rcases lt_trichotomy x y with h | h | h
      · exact Or.inl (Or.inl h)
      · subst h
        rcases ih ys with h1 | h1
        · exact Or.inl (Or.inr ⟨rfl, h1⟩)
        · exact Or.inr (Or.inr ⟨rfl, h1⟩)
      · exact Or.inr (Or.inl h)

theorem codesLE_trans (a b c : List Nat) (hab : codesLE a b = true) (hbc : codesLE b c = true) :
    codesLE a c = true := by
  induction a generalizing b c with
  | nil => simp [codesLE]
  | cons x xs ih =>
    cases b with
    | nil => simp [codesLE] at hab
    | cons y ys =>
      cases c with
      | nil => simp [codesLE] at hbc
      | cons z zs =>
        simp only [codesLE, Bool.or_eq_true, Bool.and_eq_true, decide_eq_true_eq] at hab hbc ⊢
        rcases hab with h | ⟨h, h1⟩
        · rcases hbc with g | ⟨g, _⟩
          · exact Or.inl (by omega)
          · exact Or.inl (by omega)
        · rcases hbc with g | ⟨g, g1⟩
          · exact Or.inl (by omega)
          · exact Or.inr ⟨by omega, ih ys zs h1 g1⟩

theorem codesLE_antisymm (a b : List Nat) (hab : codesLE a b = true) (hba : codesLE b a = true) :
    a = b := by
  induction a generalizing b with
  | nil =>
    cases b with
    | nil => rfl
    | cons y ys => simp [codesLE] at hba
  | cons x xs ih =>
    cases b with
    | nil => simp [codesLE] at hab
    | cons y ys =>
      simp only [codesLE, Bool.or_eq_true, Bool.and_eq_true, decide_eq_true_eq] at hab hba
      rcases hab with h | ⟨h, h1⟩
      · rcases hba with g | ⟨g, _⟩ <;> omega
      · rcases hba with g | ⟨_, g1⟩
        · omega
        · rw [h, ih ys h1 g1]

theorem codes_injective (a b : String)
    (h : a.toList.map Char.toNat = b.toList.map Char.toNat) : a = b := by
  have hinj : Function.Injective Char.toNat := by
    intro c d hcd
    have : Char.ofNat c.toNat = Char.ofNat d.toNat := by rw [hcd]
    simpa using this
  exact String.ext (List.map_injective_iff.2 hinj h)

theorem keyLE_total (a b : String) : keyLE a b ∨ keyLE b a := codesLE_total _ _

theorem keyLE_trans (a b c : String) (hab : keyLE a b) (hbc : keyLE b c) : keyLE a c :=
  codesLE_trans _ _ _ hab hbc

theorem keyLE_antisymm (a b : String) (hab : keyLE a b) (hba : keyLE b a) : a = b :=
  codes_injective a b (codesLE_antisymm _ _ hab hba)

/-- The result of `sort.Strings` is ascending. -/
theorem sortStrings_sorted (keys : List String) : (sortStrings keys).Sorted keyLE := by
  haveI : IsTotal String keyLE := ⟨keyLE_total⟩
  haveI : IsTrans String keyLE := ⟨keyLE_trans⟩
  exact List.sorted_insertionSort keyLE keys

/-- The result of `sort.Strings` holds the same keys. -/
theorem sortStrings_perm (keys : List String) : (sortStrings keys).Perm keys :=
  List.perm_insertionSort keyLE keys

/-- The result of `sort.Strings` does not depend on the order of its input. -/
theorem sortStrings_of_perm (k1 k2 : List String) (h : k1.Perm k2) :
    sortStrings k1 = sortStrings k2 := by
  haveI : IsAntisymm String keyLE := ⟨keyLE_antisymm⟩
  exact List.eq_of_perm_of_sorted
    (((sortStrings_perm k1).trans h).trans (sortStrings_perm k2).symm)
    (sortStrings_sorted k1) (sortStrings_sorted k2)

/-! ## The two loops of `calcSecretHashValue` -/

theorem foldl_collect_keys {V : Type} (entries : List (String × V)) (acc : List String) :
    entries.foldl (fun keys entry => keys ++ [entry.1]) acc = acc ++ entries.map Prod.fst := by
  induction entries generalizing acc with
  | nil => simp
  | cons e rest ih => simp [ih]

theorem hashKeys_eq (secret : Secret) : hashKeys secret = secret.Data.map Prod.fst := by
  simp [hashKeys, foldl_collect_keys]

theorem foldl_collect_values (get : String → List Byte) (keys : List String) (acc : List Byte) :
    keys.foldl (fun raw key => raw ++ get key) acc = acc ++ (keys.map get).flatten := by
  induction keys generalizing acc with
  | nil => simp
  | cons k rest ih => simp [ih]

theorem rawbytes_eq (secret : Secret) :
    rawbytes secret = ((sortStrings (secret.Data.map Prod.fst)).map secret.get).flatten := by
  simp [rawbytes, foldl_collect_values, hashKeys_eq]

theorem calcSecretHashValue_some (digest : List Byte → Except GoError String) (secret : Secret) :
    calcSecretHashValue digest (some secret) = hashResult (digest (rawbytes secret)) := by
  unfold calcSecretHashValue
  simp only
  cases digest (rawbytes secret) <;> rfl

theorem hashResult_injective : Function.Injective hashResult := by
  intro x y h
  cases x <;> cases y <;> simp_all [hashResult]

/-! ## Looking up a key in the entries of a map -/

theorem lookup_eq_some_iff {V : Type} (entries : List (String × V)) (k : String) (v : V)
    (hnd : DistinctKeys entries) : entries.lookup k = some v ↔ (k, v) ∈ entries := by
  induction entries with
  | nil => simp
  | cons e rest ih =>
    obtain ⟨ek, ev⟩ := e
    have hnd2 : ek ∉ rest.map Prod.fst ∧ DistinctKeys rest := by
      simpa [DistinctKeys] using hnd
    by_cases hk : k = ek
    · subst hk
      rw [List.lookup_cons]
      simp only [beq_self_eq_true, List.mem_cons, Prod.mk.injEq, true_and]
      constructor
      · intro h
        injection h with h
        exact Or.inl h.symm
      · rintro (h | h)
        · rw [h]
        · exact absurd (List.mem_map_of_mem Prod.fst h) hnd2.1
    · rw [List.lookup_cons]
      have hne : (k == ek) = false := by simpa using hk
      simp only [hne, List.mem_cons, Prod.mk.injEq, hk, false_and, false_or]
      exact ih hnd2.2

theorem mem_keys_iff_lookup {V : Type} (entries : List (String × V)) (k : String) :
    k ∈ entries.map Prod.fst ↔ (entries.lookup k).isSome = true := by
  induction entries with
  | nil => simp
  | cons e rest ih =>
    obtain ⟨ek, ev⟩ := e
    by_cases hk : k = ek
    · subst hk
      simp [List.lookup_cons]
    · have hne : (k == ek) = false := by simpa using hk
      simp only [List.map_cons, List.mem_cons, hk, false_or, List.lookup_cons, hne]
      exact ih

theorem lookup_of_perm {V : Type} (d1 d2 : List (String × V)) (hperm : d1.Perm d2)
    (hnd : DistinctKeys d1) (k : String) : d1.lookup k = d2.lookup k := by
  have hnd2 : DistinctKeys d2 := (hperm.map Prod.fst).nodup_iff.1 hnd
  apply Option.ext
  intro v
  simp only [Option.mem_def]
  rw [lookup_eq_some_iff d1 k v hnd, lookup_eq_some_iff d2 k v hnd2]
  exact hperm.mem_iff

/-- Records with the same keys and values have the same byte buffer. -/
theorem rawbytes_of_sameData (r1 r2 : Secret) (h1 : DistinctKeys r1.Data)
    (h2 : DistinctKeys r2.Data) (h : SameData r1 r2) : rawbytes r1 = rawbytes r2 := by
  have hkeys : (r1.Data.map Prod.fst).Perm (r2.Data.map Prod.fst) := by
    rw [List.perm_ext_iff_of_nodup h1 h2]
    intro k
    rw [mem_keys_iff_lookup, mem_keys_iff_lookup, h k]
  have hget : r1.get = r2.get := by
    funext k
    simp [Secret.get, h k]
  rw [rawbytes_eq, rawbytes_eq, sortStrings_of_perm _ _ hkeys, hget]

theorem toNat_ofNat_byte (b : Byte) : (Char.ofNat b.val).toNat = b.val := by
  have hv : b.val.isValidChar := Or.inl (by omega)
  unfold Char.ofNat
  rw [dif_pos hv]
  simp [Char.ofNatAux, Char.toNat, UInt32.toNat]

theorem spellDigest_injective : Function.Injective spellDigest := by
  intro x y hxy
  have hc : Function.Injective (fun b : Byte => Char.ofNat b.val) := by
    intro a b hab
    have : (Char.ofNat a.val).toNat = (Char.ofNat b.val).toNat := by
      simp only at hab
      rw [hab]
    rw [toNat_ofNat_byte, toNat_ofNat_byte] at this
    exact Fin.ext this
  simp only [spellDigest, Except.ok.injEq] at hxy
  exact List.map_injective_iff.2 hc (congrArg String.data hxy)

/-! ## Claims on the fingerprint -/

/-- C3, as stated, fails. With a digest that is injective on byte strings, the
records `{"a": "xy", "b": "z"}` and `{"a": "x", "b": "yz"}` differ in the value
of `a` and of `b`, and `calcSecretHashValue` still returns the same fingerprint
for both, because it digests only the concatenation `xyz` of the values. -/
theorem fingerprint_iff_sameData_fails :
    Function.Injective spellDigest ∧
    DistinctKeys secretXyZ.Data ∧ DistinctKeys secretXYz.Data ∧
    calcSecretHashValue spellDigest (some secretXyZ) = ("xyz", none) ∧
    calcSecretHashValue spellDigest (some secretXYz) = ("xyz", none) ∧
    secretXyZ.Data.lookup "a" = some [120, 121] ∧
    secretXYz.Data.lookup "a" = some [120] ∧
    ¬ (calcSecretHashValue spellDigest (some secretXyZ) =
          calcSecretHashValue spellDigest (some secretXYz) ↔
        SameData secretXyZ secretXYz) := by
  refine ⟨spellDigest_injective, by decide, by decide, rfl, rfl, by decide, by decide, ?_⟩
  intro h
  have ha := h.1 rfl "a"
  revert ha
  decide

/-- C3, amended. With a digest that is injective on byte strings, two non-nil
records have the same fingerprint exactly when their values, concatenated in
ascending order of their keys, give the same byte string; and records with the
same keys and the same value under each key have the same fingerprint. -/
theorem fingerprint_eq_iff_rawbytes_eq (digest : List Byte → Except GoError String)
    (hinj : Function.Injective digest) (r1 r2 : Secret)
    (h1 : DistinctKeys r1.Data) (h2 : DistinctKeys r2.Data) :
    (calcSecretHashValue digest (some r1) = calcSecretHashValue digest (some r2) ↔
      rawbytes r1 = rawbytes r2) ∧
    (SameData r1 r2 →
      calcSecretHashValue digest (some r1) = calcSecretHashValue digest (some r2)) := by
  rw [calcSecretHashValue_some, calcSecretHashValue_some]
  refine ⟨⟨fun h => hinj (hashResult_injective h), fun h => by rw [h]⟩, fun h => ?_⟩
  rw [rawbytes_of_sameData r1 r2 h1 h2 h]

/-- C3, amended, on `{"a": "xy", "b": "z"}` listed in its two orders: same keys
and values, same byte buffer `xyz`, same fingerprint. -/
theorem fingerprint_eq_iff_rawbytes_eq_witness :
    Function.Injective spellDigest ∧ DistinctKeys secretXyZ.Data ∧
    DistinctKeys secretZXy.Data ∧
    rawbytes secretXyZ = [120, 121, 122] ∧ rawbytes secretZXy = [120, 121, 122] ∧
    calcSecretHashValue spellDigest (some secretXyZ) =
      calcSecretHashValue spellDigest (some secretZXy) :=
  ⟨spellDigest_injective, by decide, by decide, by decide, by decide,
    (fingerprint_eq_iff_rawbytes_eq spellDigest spellDigest_injective secretXyZ secretZXy
      (by decide) (by decide)).1.2 (by decide)⟩

/-- C4. When two entry lists hold the same key/value pairs, with distinct keys,
in different orders, `calcSecretHashValue` returns the same fingerprint and the
same error for both. -/
theorem fingerprint_order_independent (digest : List Byte → Except GoError String)
    (d1 d2 : List (String × List Byte)) (hperm : d1.Perm d2) (hnd : DistinctKeys d1) :
    calcSecretHashValue digest (some { Data := d1 }) =
      calcSecretHashValue digest (some { Data := d2 }) := by
  have hnd2 : DistinctKeys d2 := (hperm.map Prod.fst).nodup_iff.1 hnd
  rw [calcSecretHashValue_some, calcSecretHashValue_some]
  rw [rawbytes_of_sameData { Data := d1 } { Data := d2 } hnd hnd2
    (fun k => lookup_of_perm d1 d2 hperm hnd k)]

/-- C4, on `{"a": "xy", "b": "z"}` listed in its two orders. -/
theorem fingerprint_order_independent_witness :
    secretXyZ.Data.Perm secretZXy.Data ∧ DistinctKeys secretXyZ.Data ∧
    calcSecretHashValue spellDigest (some { Data := secretXyZ.Data }) = ("xyz", none) ∧
    calcSecretHashValue spellDigest (some { Data := secretXyZ.Data }) =
      calcSecretHashValue spellDigest (some { Data := secretZXy.Data }) :=
  ⟨by decide, by decide, rfl,
    fingerprint_order_independent spellDigest secretXyZ.Data secretZXy.Data
      (by decide) (by decide)⟩

/-- C10. `calcSecretHashValue(nil)` returns the empty string and a nil error,
whatever the digest function. -/
theorem fingerprint_of_nil (digest : List Byte → Except GoError String) :
    calcSecretHashValue digest none = ("", none) := rfl

/-- The keys in ascending order are what `sort.Strings` leaves in `hashKeys`,
so the byte buffer is the concatenation of the values in that order. -/
theorem rawbytes_of_ascending (secret : Secret) (keys : List String)
    (h : AscendingKeysOf secret keys) : rawbytes secret = (keys.map secret.get).flatten := by
  haveI : IsAntisymm String keyLE := ⟨keyLE_antisymm⟩
  have hkeys : sortStrings (secret.Data.map Prod.fst) = keys :=
    List.eq_of_perm_of_sorted ((sortStrings_perm _).trans h.1.symm)
      (sortStrings_sorted _) h.2
  rw [rawbytes_eq, hkeys]

/-- C11. For a non-nil record, when `keys` lists the keys of `r.Data` in
ascending order, `calcSecretHashValue(r)` is the result of the digest function
on the concatenation of the values taken in that order: the digest with a nil
error when the digest function succeeds, and the empty string with the digest
function's error when it fails; it returns an error in no other case. -/
theorem fingerprint_is_digest_of_sorted_values (digest : List Byte → Except GoError String)
    (r : Secret) (keys : List String) (h : AscendingKeysOf r keys) :
    (∀ hashValue : String, digest ((keys.map r.get).flatten) = .ok hashValue →
      calcSecretHashValue digest (some r) = (hashValue, none)) ∧
    (∀ err : GoError, digest ((keys.map r.get).flatten) = .error err →
      calcSecretHashValue digest (some r) = ("", some err)) ∧
    (∀ err : GoError, (calcSecretHashValue digest (some r)).2 = some err →
      digest ((keys.map r.get).flatten) = .error err) := by
  rw [calcSecretHashValue_some, rawbytes_of_ascending r keys h]
  refine ⟨fun hv hd => by rw [hd]; rfl, fun err hd => by rw [hd]; rfl, fun err he => ?_⟩
  cases hd : digest ((keys.map r.get).flatten) with
  | error e =>
    rw [hd] at he
    simp only [hashResult, Option.some.injEq] at he
    rw [he]
  | ok v =>
    rw [hd] at he
    simp [hashResult] at he

/-- C11, on `{"b": "z", "a": "xy"}`: the keys in ascending order are `a`, `b`,
the buffer is `xyz`; a digest that spells its input returns `xyz`, a digest
that fails returns the empty string with its error. -/
theorem fingerprint_is_digest_of_sorted_values_witness :
    AscendingKeysOf secretZXy ["a", "b"] ∧
    ((["a", "b"].map secretZXy.get).flatten = [120, 121, 122]) ∧
    calcSecretHashValue spellDigest (some secretZXy) = ("xyz", none) ∧
    calcSecretHashValue failingDigest (some secretZXy) =
      ("", some { msg := "write failed", ctx := [] }) :=
  ⟨by decide, by decide,
    (fingerprint_is_digest_of_sorted_values spellDigest secretZXy ["a", "b"]
      (by decide)).1 "xyz" rfl,
    (fingerprint_is_digest_of_sorted_values failingDigest secretZXy ["a", "b"]
      (by decide)).2.1 { msg := "write failed", ctx := [] } rfl⟩

/-- C20. Two non-nil records whose values, each concatenated in ascending
order of its own keys, give the same byte string get the same result from
`calcSecretHashValue`, whatever their keys and however the bytes are divided
among the fields; `{"a": "xy", "b": "z"}`, `{"a": "x", "b": "yz"}` and
`{"c": "xyz"}` get the same result under every digest function. -/
theorem fingerprint_ignores_keys_and_boundaries (digest : List Byte → Except GoError String) :
    (∀ (r1 r2 : Secret) (keys1 keys2 : List String),
      AscendingKeysOf r1 keys1 → AscendingKeysOf r2 keys2 →
      (keys1.map r1.get).flatten = (keys2.map r2.get).flatten →
      calcSecretHashValue digest (some r1) = calcSecretHashValue digest (some r2)) ∧
    calcSecretHashValue digest (some secretXyZ) = calcSecretHashValue digest (some secretXYz) ∧
    calcSecretHashValue digest (some secretXYz) = calcSecretHashValue digest (some secretXyz) := by
  have key : ∀ (r1 r2 : Secret) (keys1 keys2 : List String),
      AscendingKeysOf r1 keys1 → AscendingKeysOf r2 keys2 →
      (keys1.map r1.get).flatten = (keys2.map r2.get).flatten →
      calcSecretHashValue digest (some r1) = calcSecretHashValue digest (some r2) := by
    intro r1 r2 keys1 keys2 h1 h2 heq
    rw [calcSecretHashValue_some, calcSecretHashValue_some,
      rawbytes_of_ascending r1 keys1 h1, rawbytes_of_ascending r2 keys2 h2, heq]
  exact ⟨key,
    key secretXyZ secretXYz ["a", "b"] ["a", "b"] (by decide) (by decide) (by decide),
    key secretXYz secretXyz ["a", "b"] ["c"] (by decide) (by decide) (by decide)⟩

/-! ## Effect of `extractSecretToFile` -/

theorem extractSecretToFile_notFound {σ : Type} (write : σ → String → List Byte → σ × Option Err)
    (req : KibanaRequest) (st : Effects σ) (secretName key toFile : String) (err : Err)
    (hget : req.secretGet { Name := secretName, Namespace := req.cluster.Namespace } = .error err)
    (hnf : IsNotFound (Root err) = true) :
    extractSecretToFile write req st secretName key toFile = (st, some err) := by
  simp [extractSecretToFile, hget, hnf]

theorem extractSecretToFile_fetchFailed {σ : Type}
    (write : σ → String → List Byte → σ × Option Err)
    (req : KibanaRequest) (st : Effects σ) (secretName key toFile : String) (err : Err)
    (hget : req.secretGet { Name := secretName, Namespace := req.cluster.Namespace } = .error err)
    (hnf : IsNotFound (Root err) = false) :
    extractSecretToFile write req st secretName key toFile =
      (st, some (.wrap err
        { msg := "unable to extract secret to file"
          ctx := [("cluster", CtxValue.str req.cluster.Name),
                  ("namespace", CtxValue.str req.cluster.Namespace)] })) := by
  simp [extractSecretToFile, hget, hnf]

theorem extractSecretToFile_absent {σ : Type} (write : σ → String → List Byte → σ × Option Err)
    (req : KibanaRequest) (st : Effects σ) (secretName key toFile : String) (sec : Secret)
    (hget : req.secretGet { Name := secretName, Namespace := req.cluster.Namespace } = .ok sec)
    (hkey : sec.Data.lookup key = none) :
    extractSecretToFile write req st secretName key toFile =
      ({ st with log := st.log ++
          [{ msg := "no secret data found", ctx := [("key", CtxValue.str key)] }] }, none) := by
  simp [extractSecretToFile, hget, hkey]

theorem extractSecretToFile_present {σ : Type} (write : σ → String → List Byte → σ × Option Err)
    (req : KibanaRequest) (st : Effects σ) (secretName key toFile : String) (sec : Secret)
    (value : List Byte)
    (hget : req.secretGet { Name := secretName, Namespace := req.cluster.Namespace } = .ok sec)
    (hkey : sec.Data.lookup key = some value) :
    extractSecretToFile write req st secretName key toFile =
      ({ st with workdir := (write st.workdir toFile value).1 },
        (write st.workdir toFile value).2) := by
  simp [extractSecretToFile, hget, hkey]

/-- A failed fetch makes `extractSecretToFile` return an error and leave the
effects as they were. -/
theorem extractSecretToFile_fetch_error {σ : Type}
    (write : σ → String → List Byte → σ × Option Err)
    (req : KibanaRequest) (st : Effects σ) (secretName key toFile : String) (err : Err)
    (hget : req.secretGet { Name := secretName, Namespace := req.cluster.Namespace } =
      .error err) :
    ∃ e, extractSecretToFile write req st secretName key toFile = (st, some e) := by
  cases hnf : IsNotFound (Root err) with
  | true => exact ⟨_, extractSecretToFile_notFound write req st secretName key toFile err hget hnf⟩
  | false =>
    exact ⟨_, extractSecretToFile_fetchFailed write req st secretName key toFile err hget hnf⟩

/-! ## Effect of `extractCertificates` and `readSecrets` -/

theorem extractCertificates_cons_error {σ : Type}
    (write : σ → String → List Byte → σ × Option Err)
    (req : KibanaRequest) (st st1 : Effects σ) (secretName secretKey certPath : String)
    (rest : List (String × String)) (e : Err)
    (h : extractSecretToFile write req st secretName secretKey certPath = (st1, some e)) :
    extractCertificates write req st secretName ((secretKey, certPath) :: rest) =
      (st1, some (.wrap e
        { msg := "failed to extract cert"
          ctx := [("key", CtxValue.str secretKey), ("cert_path", CtxValue.str certPath)] })) := by
  simp [extractCertificates, h]

theorem extractCertificates_cons_ok {σ : Type}
    (write : σ → String → List Byte → σ × Option Err)
    (req : KibanaRequest) (st st1 : Effects σ) (secretName secretKey certPath : String)
    (rest : List (String × String))
    (h : extractSecretToFile write req st secretName secretKey certPath = (st1, none)) :
    extractCertificates write req st secretName ((secretKey, certPath) :: rest) =
      extractCertificates write req st1 secretName rest := by
  simp [extractCertificates, h]

/-- With a failing fetch and at least one field, `extractCertificates` returns
an error. -/
theorem extractCertificates_fetch_error {σ : Type}
    (write : σ → String → List Byte → σ × Option Err)
    (req : KibanaRequest) (st : Effects σ) (secretName : String)
    (certs : List (String × String)) (err : Err) (hne : certs ≠ [])
    (hget : req.secretGet { Name := secretName, Namespace := req.cluster.Namespace } =
      .error err) :
    ∃ e, extractCertificates write req st secretName certs = (st, some e) := by
  cases certs with
  | nil => exact absurd rfl hne
  | cons entry rest =>
    obtain ⟨secretKey, certPath⟩ := entry
    obtain ⟨e, he⟩ := extractSecretToFile_fetch_error write req st secretName secretKey certPath
      err hget
    exact ⟨_, extractCertificates_cons_error write req st st secretName secretKey certPath rest
      e he⟩

theorem readSecrets_cons_error {σ : Type} (write : σ → String → List Byte → σ × Option Err)
    (req : KibanaRequest) (st st1 : Effects σ) (secretName : String)
    (certMap : List (String × String)) (rest : List (String × List (String × String)))
    (e : Err) (h : extractCertificates write req st secretName certMap = (st1, some e)) :
    readSecrets write req st ((secretName, certMap) :: rest) =
      (st1, some (.wrap e
        { msg := "failed to extract secret"
          ctx := [("secret_name", CtxValue.str secretName)] })) := by
  simp [readSecrets, h]

theorem readSecrets_cons_ok {σ : Type} (write : σ → String → List Byte → σ × Option Err)
    (req : KibanaRequest) (st st1 : Effects σ) (secretName : String)
    (certMap : List (String × String)) (rest : List (String × List (String × String)))
    (h : extractCertificates write req st secretName certMap = (st1, none)) :
    readSecrets write req st ((secretName, certMap) :: rest) =
      readSecrets write req st1 rest := by
  simp [readSecrets, h]

/-! ## Claims on the secret extraction -/

/-- C12. The comment on `readSecrets` says that secrets that are not found are
ignored. In the code they are not: when the fetch of a secret of the catalog
that has at least one field fails, with a not-found error like with any other,
`readSecrets` returns an error, in whatever order the catalog is visited and
whatever the file writer does. -/
theorem readSecrets_fails_on_missing_secret {σ : Type}
    (write : σ → String → List Byte → σ × Option Err) (req : KibanaRequest) (st : Effects σ)
    (catalog : List (String × List (String × String))) (secretName : String)
    (certs : List (String × String)) (err : Err)
    (hmem : (secretName, certs) ∈ catalog) (hne : certs ≠ [])
    (hget : req.secretGet { Name := secretName, Namespace := req.cluster.Namespace } =
      .error err) :
    (readSecrets write req st catalog).2 ≠ none := by
  induction catalog generalizing st with
  | nil => simp at hmem
  | cons entry rest ih =>
    obtain ⟨name, certMap⟩ := entry
    cases hx : extractCertificates write req st name certMap with
    | mk st1 res =>
      cases res with
      | some e =>
        rw [readSecrets_cons_error write req st st1 name certMap rest e hx]
        simp
      | none =>
        rw [readSecrets_cons_ok write req st st1 name certMap rest hx]
        rcases List.mem_cons.1 hmem with heq | hin
        · injection heq with h1 h2
          subst h1 h2
          obtain ⟨e, he⟩ := extractCertificates_fetch_error write req st secretName certs err
            hne hget
          rw [he] at hx
          simp at hx
        · exact ih st1 hin

/-- C12, a store without any secret and the catalog in source order:
`readSecrets` returns the not-found error of `kibana` under two wrappers. -/
theorem readSecrets_fails_on_missing_secret_witness :
    ("kibana", [("ca", "ca.crt"), ("key", "system.logging.kibana.key"),
      ("cert", "system.logging.kibana.crt")]) ∈ secretCertificates ∧
    emptyStore.secretGet { Name := "kibana", Namespace := emptyStore.cluster.Namespace } =
      .error notFoundError ∧
    IsNotFound (Root notFoundError) = true ∧
    (readSecrets WriteToWorkingDirFile emptyStore cleanStart secretCertificates).2 =
      some (.wrap (.wrap notFoundError
          { msg := "failed to extract cert"
            ctx := [("key", CtxValue.str "ca"), ("cert_path", CtxValue.str "ca.crt")] })
        { msg := "failed to extract secret"
          ctx := [("secret_name", CtxValue.str "kibana")] }) ∧
    (readSecrets WriteToWorkingDirFile emptyStore cleanStart secretCertificates).2 ≠ none :=
  ⟨by decide, rfl, by decide, by decide,
    readSecrets_fails_on_missing_secret WriteToWorkingDirFile emptyStore cleanStart
      secretCertificates "kibana"
      [("ca", "ca.crt"), ("key", "system.logging.kibana.key"),
        ("cert", "system.logging.kibana.crt")]
      notFoundError (by decide) (by decide) rfl⟩

/-- C13, as stated, fails. For the entry `kibana` with the field `ca`: when the
store does not have the secret, `extractCertificates` returns the not-found
error inside a wrapper, not the error itself; when the store cannot be reached
it returns the error under two wrappers, and no context value of the result is
the secret name. -/
theorem extractCertificates_unwrapped_fails :
    (extractCertificates WriteToWorkingDirFile emptyStore cleanStart "kibana"
        [("ca", "ca.crt")]).2 =
      some (.wrap notFoundError
        { msg := "failed to extract cert"
          ctx := [("key", CtxValue.str "ca"), ("cert_path", CtxValue.str "ca.crt")] }) ∧
    (extractCertificates WriteToWorkingDirFile emptyStore cleanStart "kibana"
        [("ca", "ca.crt")]).2 ≠ some notFoundError ∧
    (extractCertificates WriteToWorkingDirFile brokenStore cleanStart "kibana"
        [("ca", "ca.crt")]).2 =
      some (.wrap (.wrap unreachableError
          { msg := "unable to extract secret to file"
            ctx := [("cluster", CtxValue.str "es"), ("namespace", CtxValue.str "logging")] })
        { msg := "failed to extract cert"
          ctx := [("key", CtxValue.str "ca"), ("cert_path", CtxValue.str "ca.crt")] }) ∧
    (∀ e, (extractCertificates WriteToWorkingDirFile brokenStore cleanStart "kibana"
        [("ca", "ca.crt")]).2 = some e → CtxValue.str "kibana" ∉ ctxValues e) := by
  refine ⟨by decide, by decide, by decide, ?_⟩
  intro e he
  have h : (extractCertificates WriteToWorkingDirFile brokenStore cleanStart "kibana"
      [("ca", "ca.crt")]).2 =
      some (.wrap (.wrap unreachableError
          { msg := "unable to extract secret to file"
            ctx := [("cluster", CtxValue.str "es"), ("namespace", CtxValue.str "logging")] })
        { msg := "failed to extract cert"
          ctx := [("key", CtxValue.str "ca"), ("cert_path", CtxValue.str "ca.crt")] }) := by
    decide
  rw [h] at he
  injection he with he
  subst he
  decide

/-- C13, amended. For a catalog entry whose first visited field is
`(secretKey, certPath)`: when the fetch fails with an error whose root is
classified not-found, `extractCertificates` returns that error wrapped once,
with the key and the cert path as context, and the root of the result is the
root of the store's error; when the fetch fails with any other error, it
returns that error wrapped with the cluster name and the namespace and then
wrapped with the key and the cert path. Nothing has been written or logged. -/
theorem extractCertificates_wraps_fetch_error {σ : Type}
    (write : σ → String → List Byte → σ × Option Err) (req : KibanaRequest) (st : Effects σ)
    (secretName secretKey certPath : String) (rest : List (String × String)) (err : Err)
    (hget : req.secretGet { Name := secretName, Namespace := req.cluster.Namespace } =
      .error err) :
    (IsNotFound (Root err) = true →
      extractCertificates write req st secretName ((secretKey, certPath) :: rest) =
        (st, some (.wrap err
          { msg := "failed to extract cert"
            ctx := [("key", CtxValue.str secretKey),
                    ("cert_path", CtxValue.str certPath)] })) ∧
      Root (.wrap err
          { msg := "failed to extract cert"
            ctx := [("key", CtxValue.str secretKey),
                    ("cert_path", CtxValue.str certPath)] }) = Root err) ∧
    (IsNotFound (Root err) = false →
      extractCertificates write req st secretName ((secretKey, certPath) :: rest) =
        (st, some (.wrap (.wrap err
            { msg := "unable to extract secret to file"
              ctx := [("cluster", CtxValue.str req.cluster.Name),
                      ("namespace", CtxValue.str req.cluster.Namespace)] })
          { msg := "failed to extract cert"
            ctx := [("key", CtxValue.str secretKey),
                    ("cert_path", CtxValue.str certPath)] }))) := by
  constructor
  · intro hnf
    exact ⟨extractCertificates_cons_error write req st st secretName secretKey certPath rest
      err (extractSecretToFile_notFound write req st secretName secretKey certPath err hget hnf),
      rfl⟩
  · intro hnf
    exact extractCertificates_cons_error write req st st secretName secretKey certPath rest _
      (extractSecretToFile_fetchFailed write req st secretName secretKey certPath err hget hnf)

/-- C13, amended, on a store without the secret `kibana`. -/
theorem extractCertificates_wraps_fetch_error_witness :
    emptyStore.secretGet { Name := "kibana", Namespace := emptyStore.cluster.Namespace } =
      .error notFoundError ∧
    IsNotFound (Root notFoundError) = true ∧
    (extractCertificates WriteToWorkingDirFile emptyStore cleanStart "kibana"
        [("ca", "ca.crt"), ("key", "system.logging.kibana.key")]).2 =
      some (.wrap notFoundError
        { msg := "failed to extract cert"
          ctx := [("key", CtxValue.str "ca"), ("cert_path", CtxValue.str "ca.crt")] }) :=
  ⟨rfl, by decide,
    congrArg Prod.snd
      ((extractCertificates_wraps_fetch_error WriteToWorkingDirFile emptyStore cleanStart
        "kibana" "ca" "ca.crt" [("key", "system.logging.kibana.key")] notFoundError rfl).1
        (by decide)).1⟩

/-- C14. When the fetch fails with an error whose root is classified
not-found, `extractSecretToFile` returns exactly that error; when it fails with
any other error, it returns a new error that wraps it with the cluster name and
the namespace. In both cases the working directory and the log are as before,
and a writer that records its calls has recorded none. -/
theorem extractSecretToFile_on_fetch_error {σ : Type}
    (write : σ → String → List Byte → σ × Option Err) (req : KibanaRequest) (st : Effects σ)
    (secretName key toFile : String) (err : Err)
    (hget : req.secretGet { Name := secretName, Namespace := req.cluster.Namespace } =
      .error err) :
    (IsNotFound (Root err) = true →
      extractSecretToFile write req st secretName key toFile = (st, some err)) ∧
    (IsNotFound (Root err) = false →
      extractSecretToFile write req st secretName key toFile =
        (st, some (.wrap err
          { msg := "unable to extract secret to file"
            ctx := [("cluster", CtxValue.str req.cluster.Name),
                    ("namespace", CtxValue.str req.cluster.Namespace)] }))) ∧
    (∀ (result : Option Err) (calls : List (String × List Byte)) (log : List LogLine),
      (extractSecretToFile (recordingWriter result) req { workdir := calls, log := log }
        secretName key toFile).1.workdir = calls) := by
  refine ⟨extractSecretToFile_notFound write req st secretName key toFile err hget,
    extractSecretToFile_fetchFailed write req st secretName key toFile err hget, ?_⟩
  intro result calls log
  obtain ⟨e, he⟩ := extractSecretToFile_fetch_error (recordingWriter result) req
    { workdir := calls, log := log } secretName key toFile err hget
  rw [he]

/-- C14, on a store without the secret and on a store that cannot be reached. -/
theorem extractSecretToFile_on_fetch_error_witness :
    emptyStore.secretGet { Name := "kibana", Namespace := emptyStore.cluster.Namespace } =
      .error notFoundError ∧
    brokenStore.secretGet { Name := "kibana", Namespace := brokenStore.cluster.Namespace } =
      .error unreachableError ∧
    IsNotFound (Root notFoundError) = true ∧ IsNotFound (Root unreachableError) = false ∧
    (extractSecretToFile WriteToWorkingDirFile emptyStore staleStart "kibana" "ca" "ca.crt").2 =
      some notFoundError ∧
    (extractSecretToFile WriteToWorkingDirFile brokenStore staleStart "kibana" "ca" "ca.crt").2 =
      some (.wrap unreachableError
        { msg := "unable to extract secret to file"
          ctx := [("cluster", CtxValue.str "es"), ("namespace", CtxValue.str "logging")] }) ∧
    (extractSecretToFile WriteToWorkingDirFile emptyStore staleStart "kibana" "ca"
      "ca.crt").1.workdir "ca.crt" = some [1] :=
  ⟨rfl, rfl, by decide, by decide,
    congrArg Prod.snd
      ((extractSecretToFile_on_fetch_error WriteToWorkingDirFile emptyStore staleStart
        "kibana" "ca" "ca.crt" notFoundError rfl).1 (by decide)),
    by decide, by decide⟩

/-- C16. When the secret exists and its data holds the key,
`extractSecretToFile` hands `toFile` and the field's bytes to the file writer
and returns what the writer returns: a writer that records its calls has
recorded exactly this one call after the ones before, and the error is the
writer's answer, nil or not, with nothing wrapped around it. With the writer
that overwrites, the file `toFile` afterwards holds exactly the field's bytes,
whatever it held before, and the error is nil. -/
theorem extractSecretToFile_writes_field {σ : Type}
    (write : σ → String → List Byte → σ × Option Err) (req : KibanaRequest) (st : Effects σ)
    (secretName key toFile : String) (sec : Secret) (value : List Byte)
    (hget : req.secretGet { Name := secretName, Namespace := req.cluster.Namespace } = .ok sec)
    (hkey : sec.Data.lookup key = some value) :
    extractSecretToFile write req st secretName key toFile =
      ({ st with workdir := (write st.workdir toFile value).1 },
        (write st.workdir toFile value).2) ∧
    (∀ (result : Option Err) (calls : List (String × List Byte)) (log : List LogLine),
      (extractSecretToFile (recordingWriter result) req { workdir := calls, log := log }
        secretName key toFile).1.workdir = calls ++ [(toFile, value)] ∧
      (extractSecretToFile (recordingWriter result) req { workdir := calls, log := log }
        secretName key toFile).2 = result) ∧
    (∀ before : Effects WorkDir,
      (extractSecretToFile WriteToWorkingDirFile req before secretName key toFile).1.workdir
        toFile = some value ∧
      (extractSecretToFile WriteToWorkingDirFile req before secretName key toFile).2 = none) := by
  refine ⟨extractSecretToFile_present write req st secretName key toFile sec value hget hkey,
    ?_, ?_⟩
  · intro result calls log
    rw [extractSecretToFile_present (recordingWriter result) req _ secretName key toFile sec
      value hget hkey]
    exact ⟨rfl, rfl⟩
  · intro before
    rw [extractSecretToFile_present WriteToWorkingDirFile req before secretName key toFile sec
      value hget hkey]
    exact ⟨GoMap.set_same _ _ _, rfl⟩

/-- C16, the secret `kibana` holding `ca = AAA` and the target `ca.crt`, which
held the byte 1 before. -/
theorem extractSecretToFile_writes_field_witness :
    kibanaOnly.secretGet { Name := "kibana", Namespace := kibanaOnly.cluster.Namespace } =
      .ok { Data := [("ca", bytesAAA)] } ∧
    staleStart.workdir "ca.crt" = some [1] ∧
    (extractSecretToFile WriteToWorkingDirFile kibanaOnly staleStart "kibana" "ca"
      "ca.crt").1.workdir "ca.crt" = some [65, 65, 65] ∧
    (extractSecretToFile WriteToWorkingDirFile kibanaOnly staleStart "kibana" "ca"
      "ca.crt").2 = none :=
  ⟨rfl, by decide,
    ((extractSecretToFile_writes_field WriteToWorkingDirFile kibanaOnly staleStart "kibana"
      "ca" "ca.crt" { Data := [("ca", bytesAAA)] } bytesAAA rfl (by decide)).2.2
      staleStart).1,
    by decide⟩

/-- With an existing secret and the writer that overwrites, `extractCertificates`
returns nil, every file of a present field holds the field's bytes, and every
other file is as before. -/
theorem extractCertificates_existing (req : KibanaRequest) (secretName : String) (sec : Secret)
    (hget : req.secretGet { Name := secretName, Namespace := req.cluster.Namespace } = .ok sec)
    (certs : List (String × String)) (st : Effects WorkDir)
    (hpaths : (certs.map Prod.snd).Nodup) :
    (extractCertificates WriteToWorkingDirFile req st secretName certs).2 = none ∧
    (∀ (key path : String) (v : List Byte), (key, path) ∈ certs →
      sec.Data.lookup key = some v →
      (extractCertificates WriteToWorkingDirFile req st secretName certs).1.workdir path =
        some v) ∧
    (∀ key path : String, (key, path) ∈ certs → sec.Data.lookup key = none →
      (extractCertificates WriteToWorkingDirFile req st secretName certs).1.workdir path =
        st.workdir path) ∧
    (∀ path : String, path ∉ certs.map Prod.snd →
      (extractCertificates WriteToWorkingDirFile req st secretName certs).1.workdir path =
        st.workdir path) := by
  induction certs generalizing st with
  | nil => simp [extractCertificates]
  | cons entry rest ih =>
    obtain ⟨k, p⟩ := entry
    have hnd : p ∉ rest.map Prod.snd ∧ (rest.map Prod.snd).Nodup := by
      simpa using hpaths
    cases hk : sec.Data.lookup k with
    | none =>
      have hstep := extractSecretToFile_absent WriteToWorkingDirFile req st secretName k p sec
        hget hk
      rw [extractCertificates_cons_ok WriteToWorkingDirFile req st _ secretName k p rest hstep]
      obtain ⟨h0, h1, h2, h3⟩ := ih
        { st with log := st.log ++
          [{ msg := "no secret data found", ctx := [("key", CtxValue.str k)] }] } hnd.2
      refine ⟨h0, ?_, ?_, ?_⟩
      · intro key path v hmem hv
        rcases List.mem_cons.1 hmem with heq | hin
        · injection heq with e1 e2
          subst e1
          rw [hk] at hv
          simp at hv
        · exact h1 key path v hin hv
      · intro key path hmem hv
        rcases List.mem_cons.1 hmem with heq | hin
        · injection heq with e1 e2
          subst e2
          exact h3 path hnd.1
        · exact h2 key path hin hv
      · intro path hpath
        simp only [List.map_cons, List.mem_cons, not_or] at hpath
        exact h3 path hpath.2
    | some value =>
      have hstep := extractSecretToFile_present WriteToWorkingDirFile req st secretName k p sec
        value hget hk
      have hstep2 : extractSecretToFile WriteToWorkingDirFile req st secretName k p =
          ({ st with workdir := st.workdir.set p value }, none) := hstep
      rw [extractCertificates_cons_ok WriteToWorkingDirFile req st _ secretName k p rest hstep2]
      obtain ⟨h0, h1, h2, h3⟩ := ih { st with workdir := st.workdir.set p value } hnd.2
      refine ⟨h0, ?_, ?_, ?_⟩
      · intro key path v hmem hv
        rcases List.mem_cons.1 hmem with heq | hin
        · injection heq with e1 e2
          subst e1 e2
          rw [hk] at hv
          injection hv with hv
          subst hv
          rw [h3 path hnd.1]
          exact GoMap.set_same _ _ _
        · exact h1 key path v hin hv
      · intro key path hmem hv
        rcases List.mem_cons.1 hmem with heq | hin
        · injection heq with e1 e2
          subst e1
          rw [hk] at hv
          simp at hv
        · rw [h2 key path hin hv]
          have hne : path ≠ p := by
            intro h
            subst h
            exact hnd.1 (List.mem_map_of_mem Prod.snd hin)
          exact GoMap.set_other _ _ _ _ hne
      · intro path hpath
        simp only [List.map_cons, List.mem_cons, not_or] at hpath
        rw [h3 path hpath.2]
        exact GoMap.set_other _ _ _ _ hpath.1

/-- C15. For a catalog entry whose secret exists, with pairwise distinct output
file names and the writer that overwrites and succeeds, `extractCertificates`
returns nil; afterwards the file of every declared field that is present in the
secret's data holds exactly the field's bytes, the file of every declared field
that is absent is as it was before, and so is every file that is not declared;
and visiting the fields in another order gives nil and the same working
directory. -/
theorem extractCertificates_writes_present_fields (req : KibanaRequest) (secretName : String)
    (sec : Secret) (certs : List (String × String)) (st : Effects WorkDir)
    (hget : req.secretGet { Name := secretName, Namespace := req.cluster.Namespace } = .ok sec)
    (hpaths : (certs.map Prod.snd).Nodup) :
    (extractCertificates WriteToWorkingDirFile req st secretName certs).2 = none ∧
    (∀ (key path : String) (v : List Byte), (key, path) ∈ certs →
      sec.Data.lookup key = some v →
      (extractCertificates WriteToWorkingDirFile req st secretName certs).1.workdir path =
        some v) ∧
    (∀ key path : String, (key, path) ∈ certs → sec.Data.lookup key = none →
      (extractCertificates WriteToWorkingDirFile req st secretName certs).1.workdir path =
        st.workdir path) ∧
    (∀ path : String, path ∉ certs.map Prod.snd →
      (extractCertificates WriteToWorkingDirFile req st secretName certs).1.workdir path =
        st.workdir path) ∧
    (∀ certs2 : List (String × String), certs.Perm certs2 →
      (extractCertificates WriteToWorkingDirFile req st secretName certs2).2 = none ∧
      (extractCertificates WriteToWorkingDirFile req st secretName certs2).1.workdir =
        (extractCertificates WriteToWorkingDirFile req st secretName certs).1.workdir) := by
  obtain ⟨h0, h1, h2, h3⟩ := extractCertificates_existing req secretName sec hget certs st hpaths
  refine ⟨h0, h1, h2, h3, ?_⟩
  intro certs2 hperm
  have hpaths2 : (certs2.map Prod.snd).Nodup := (hperm.map Prod.snd).nodup_iff.1 hpaths
  obtain ⟨g0, g1, g2, g3⟩ :=
    extractCertificates_existing req secretName sec hget certs2 st hpaths2
  refine ⟨g0, ?_⟩
  funext path
  by_cases hp : path ∈ certs.map Prod.snd
  · obtain ⟨entry, hmem, hsnd⟩ := List.mem_map.1 hp
    obtain ⟨key, path1⟩ := entry
    simp only at hsnd
    subst hsnd
    have hmem2 : (key, path1) ∈ certs2 := hperm.mem_iff.1 hmem
    cases hk : sec.Data.lookup key with
    | none => rw [g2 key path1 hmem2 hk, h2 key path1 hmem hk]
    | some v => rw [g1 key path1 v hmem2 hk, h1 key path1 v hmem hk]
  · have hp2 : path ∉ certs2.map Prod.snd := fun h => hp ((hperm.map Prod.snd).mem_iff.2 h)
    rw [g3 path hp2, h3 path hp]

/-- C15, the secret `kibana-proxy` without a session secret: the key and the
cert are written, `kibana-session-secret` is not, and the result is nil. -/
theorem extractCertificates_writes_present_fields_witness :
    proxyWithoutSession.secretGet
        { Name := "kibana-proxy", Namespace := proxyWithoutSession.cluster.Namespace } =
      .ok { Data := [("server-cert", [67]), ("server-key", [75])] } ∧
    ([("server-key", "kibana-internal.key"), ("server-cert", "kibana-internal.crt"),
      ("session-secret", "kibana-session-secret")].map Prod.snd).Nodup ∧
    (extractCertificates WriteToWorkingDirFile proxyWithoutSession cleanStart "kibana-proxy"
      [("server-key", "kibana-internal.key"), ("server-cert", "kibana-internal.crt"),
       ("session-secret", "kibana-session-secret")]).2 = none ∧
    (extractCertificates WriteToWorkingDirFile proxyWithoutSession cleanStart "kibana-proxy"
      [("server-key", "kibana-internal.key"), ("server-cert", "kibana-internal.crt"),
       ("session-secret", "kibana-session-secret")]).1.workdir "kibana-internal.key" =
        some [75] ∧
    (extractCertificates WriteToWorkingDirFile proxyWithoutSession cleanStart "kibana-proxy"
      [("server-key", "kibana-internal.key"), ("server-cert", "kibana-internal.crt"),
       ("session-secret", "kibana-session-secret")]).1.workdir "kibana-internal.crt" =
        some [67] ∧
    (extractCertificates WriteToWorkingDirFile proxyWithoutSession cleanStart "kibana-proxy"
      [("server-key", "kibana-internal.key"), ("server-cert", "kibana-internal.crt"),
       ("session-secret", "kibana-session-secret")]).1.workdir "kibana-session-secret" =
        none :=
  have h := extractCertificates_writes_present_fields proxyWithoutSession "kibana-proxy"
    { Data := [("server-cert", [67]), ("server-key", [75])] }
    [("server-key", "kibana-internal.key"), ("server-cert", "kibana-internal.crt"),
     ("session-secret", "kibana-session-secret")] cleanStart rfl (by decide)
  ⟨rfl, by decide, h.1,
    h.2.1 "server-key" "kibana-internal.key" [75] (by decide) (by decide),
    h.2.1 "server-cert" "kibana-internal.crt" [67] (by decide) (by decide),
    h.2.2.1 "session-secret" "kibana-session-secret" (by decide) (by decide)⟩

/-! ## Uniqueness of sequence numbers -/

theorem seqNoUnique_fresh (script : List (String × FakeElasticsearchResponses)) :
    SeqNoUnique (NewFakeElasticsearchChatter script) := by
  intro k1 k2 q1 q2 c1 c2 h1
  simp [fresh_Requests] at h1

/-- A request queued after a simulated call was queued under the same key
before the call, or it is the request the call has captured. -/
theorem send_queued_cases (unmarshal : String → Option JsonObject × Option GoError)
    (chat : FakeElasticsearchChatter) (p : EsRequest) (k : String)
    (q : FakeElasticsearchRequests) (c : FakeElasticsearchRequest)
    (hq : (NewFakeSendRequestFn unmarshal chat p).1.Requests k = some q) (hc : c ∈ q) :
    (∃ q0, chat.Requests k = some q0 ∧ c ∈ q0) ∨
      c = { URI := p.URI, Method := p.Method, Body := p.RequestBody, SeqNo := chat.seqNo } := by
  by_cases hk : k = p.URI
  · subst hk
    rw [send_Requests_same] at hq
    injection hq with hq
    subst hq
    rcases List.mem_append.1 hc with h | h
    · cases hold : chat.Requests p.URI with
      | none => simp [hold] at h
      | some q0 =>
        rw [hold] at h
        exact Or.inl ⟨q0, rfl, by simpa using h⟩
    · exact Or.inr (by simpa using h)
  · rw [send_Requests_other _ _ _ _ hk] at hq
    exact Or.inl ⟨q, hq, hc⟩

theorem seqNoUnique_send (unmarshal : String → Option JsonObject × Option GoError)
    (chat : FakeElasticsearchChatter) (p : EsRequest) (hinv : CaptureInv chat)
    (h : SeqNoUnique chat) : SeqNoUnique (NewFakeSendRequestFn unmarshal chat p).1 := by
  intro k1 k2 q1 q2 c1 c2 h1 h2 hc1 hc2 heq
  rcases send_queued_cases unmarshal chat p k1 q1 c1 h1 hc1 with ⟨o1, ho1, hm1⟩ | hn1
  · rcases send_queued_cases unmarshal chat p k2 q2 c2 h2 hc2 with ⟨o2, ho2, hm2⟩ | hn2
    · exact h k1 k2 o1 o2 c1 c2 ho1 ho2 hm1 hm2 heq
    · have hlt := ((hinv.2 k1 o1 ho1).1 c1 hm1).2.1
      rw [hn2] at heq
      simp only at heq
      omega
  · rcases send_queued_cases unmarshal chat p k2 q2 c2 h2 hc2 with ⟨o2, ho2, hm2⟩ | hn2
    · have hlt := ((hinv.2 k2 o2 ho2).1 c2 hm2).2.1
      rw [hn1] at heq
      simp only at heq
      omega
    · rw [hn1, hn2]

/-- A request queued after `GetRequest` was queued under the same key before. -/
theorem GetRequest_queued (chat : FakeElasticsearchChatter) (key k : String)
    (q : FakeElasticsearchRequests) (c : FakeElasticsearchRequest)
    (hq : (GetRequest chat key).1.Requests k = some q) (hc : c ∈ q) :
    ∃ q0, chat.Requests k = some q0 ∧ c ∈ q0 := by
  by_cases hk : k = key
  · subst hk
    unfold GetRequest at hq
    split at hq
    · exact ⟨q, hq, hc⟩
    · exact ⟨q, hq, hc⟩
    · rename_i request rest hreq
      simp only [GoMap.set_same] at hq
      injection hq with hq
      subst hq
      exact ⟨_, hreq, List.mem_cons_of_mem _ hc⟩
  · rw [GetRequest_Requests_other _ _ _ hk] at hq
    exact ⟨q, hq, hc⟩

theorem seqNoUnique_GetRequest (chat : FakeElasticsearchChatter) (key : String)
    (h : SeqNoUnique chat) : SeqNoUnique (GetRequest chat key).1 := by
  intro k1 k2 q1 q2 c1 c2 h1 h2 hc1 hc2 heq
  obtain ⟨o1, ho1, hm1⟩ := GetRequest_queued chat key k1 q1 c1 h1 hc1
  obtain ⟨o2, ho2, hm2⟩ := GetRequest_queued chat key k2 q2 c2 h2 hc2
  exact h k1 k2 o1 o2 c1 c2 ho1 ho2 hm1 hm2 heq

theorem seqNoUnique_GetResponse (chat : FakeElasticsearchChatter) (key : String)
    (h : SeqNoUnique chat) : SeqNoUnique (GetResponse chat key).1 := by
  unfold SeqNoUnique
  rw [GetResponse_Requests]
  exact h

theorem seqNoUnique_exec (unmarshal : String → Option JsonObject × Option GoError)
    (chat : FakeElasticsearchChatter) (ops : List Op) (hinv : CaptureInv chat)
    (h : SeqNoUnique chat) : SeqNoUnique (exec unmarshal chat ops) := by
  induction ops generalizing chat with
  | nil => exact h
  | cons op rest ih =>
    rw [exec_cons]
    cases op with
    | call p =>
      exact ih _ (captureInv_send unmarshal chat p hinv) (seqNoUnique_send unmarshal chat p hinv h)
    | getRequest k =>
      exact ih _ (captureInv_GetRequest chat k hinv) (seqNoUnique_GetRequest chat k h)
    | getResponse k =>
      exact ih _ (captureInv_GetResponse chat k hinv) (seqNoUnique_GetResponse chat k h)

/-- In a strictly increasing queue a sequence number sits at one position. -/
theorem seqIncreasing_index (q : FakeElasticsearchRequests) (hinc : SeqIncreasing q)
    (i j : Nat) (c d : FakeElasticsearchRequest) (hi : q[i]? = some c) (hj : q[j]? = some d)
    (heq : c.SeqNo = d.SeqNo) : i = j := by
  obtain ⟨hil, hic⟩ := List.getElem?_eq_some_iff.1 hi
  obtain ⟨hjl, hjd⟩ := List.getElem?_eq_some_iff.1 hj
  have hp := List.pairwise_iff_getElem.1 hinc
  rcases lt_trichotomy i j with hlt | he | hgt
  · have := hp i j hil hjl hlt
    rw [hic, hjd] at this
    omega
  · exact he
  · have := hp j i hjl hil hgt
    rw [hic, hjd] at this
    omega

/-! ## Further claims on the fake transport -/

/-- C17, as stated, fails. The Body `null` is not a JSON object, yet the
decoder returns no error for it and sets the map to nil, so
`BodyAsResponseBody` returns the nil map and not the map with the entry
`results`; the request function then leaves `payload.ResponseBody` nil. -/
theorem BodyAsResponseBody_null_not_results :
    decodeNullOrEmpty "null" = (none, none) ∧
    BodyAsResponseBody decodeNullOrEmpty nullResponse = none ∧
    BodyAsResponseBody decodeNullOrEmpty nullResponse ≠
      some [("results", JsonValue.string "null")] ∧
    (NewFakeSendRequestFn decodeNullOrEmpty (NewFakeElasticsearchChatter [("/a", [nullResponse])])
      (newRequest "GET" "/a" "")).2 =
      .ok { newRequest "GET" "/a" "" with
        StatusCode := 200, RawResponseBody := "null", ResponseBody := none } := by
  refine ⟨by decide, by decide, by decide, by decide⟩

/-- C17, amended. When `json.Unmarshal` returns an error for the Body,
`BodyAsResponseBody` returns the map with the single entry `results` holding
the raw Body, whatever the decoder had put in the map before it failed; when
`json.Unmarshal` returns no error, it returns the map as the decoder leaves it:
the decoded document, and the nil map when the decoder has set it to nil, as it
does for the Body `null`. -/
theorem BodyAsResponseBody_parsed_or_results
    (unmarshal : String → Option JsonObject × Option GoError)
    (response : FakeElasticsearchResponse) :
    ((unmarshal response.Body).2 ≠ none →
      BodyAsResponseBody unmarshal response =
        some [("results", JsonValue.string response.Body)]) ∧
    ((unmarshal response.Body).2 = none →
      BodyAsResponseBody unmarshal response = (unmarshal response.Body).1) ∧
    BodyAsResponseBody decodePartial { Error := none, StatusCode := 200, Body := "not json" } =
      some [("results", JsonValue.string "not json")] ∧
    BodyAsResponseBody decodeNullOrEmpty { Error := none, StatusCode := 200, Body := "\x7b\x7d" } =
      some [] ∧
    BodyAsResponseBody decodeNullOrEmpty { Error := none, StatusCode := 200, Body := "null" } =
      none := by
  refine ⟨?_, ?_, by decide, by decide, by decide⟩
  · intro h
    unfold BodyAsResponseBody
    cases hu : unmarshal response.Body with
    | mk body err =>
      cases err with
      | none => simp [hu] at h
      | some e => rfl
  · intro h
    unfold BodyAsResponseBody
    cases hu : unmarshal response.Body with
    | mk body err =>
      cases err with
      | none => rfl
      | some e => simp [hu] at h

/-- C19. On the chatter reached from a freshly built one by any sequence of
simulated calls, `GetRequest` and `GetResponse`: the counter is 1 plus the
number of simulated calls made; every queued request has a sequence number from
1 up to, not including, the counter, and sits under the key equal to its URI;
two queued requests with the same sequence number sit under the same key at the
same position; and in every queue the sequence numbers strictly increase. -/
theorem reachable_capture_invariant (unmarshal : String → Option JsonObject × Option GoError)
    (script : List (String × FakeElasticsearchResponses)) (ops : List Op) :
    (exec unmarshal (NewFakeElasticsearchChatter script) ops).seqNo = 1 + (numCalls ops : Int) ∧
    (∀ (k : String) (q : FakeElasticsearchRequests) (c : FakeElasticsearchRequest),
      (exec unmarshal (NewFakeElasticsearchChatter script) ops).Requests k = some q → c ∈ q →
      1 ≤ c.SeqNo ∧
      c.SeqNo < (exec unmarshal (NewFakeElasticsearchChatter script) ops).seqNo ∧
      c.URI = k) ∧
    (∀ (k1 k2 : String) (q1 q2 : FakeElasticsearchRequests) (i1 i2 : Nat)
      (c1 c2 : FakeElasticsearchRequest),
      (exec unmarshal (NewFakeElasticsearchChatter script) ops).Requests k1 = some q1 →
      (exec unmarshal (NewFakeElasticsearchChatter script) ops).Requests k2 = some q2 →
      q1[i1]? = some c1 → q2[i2]? = some c2 → c1.SeqNo = c2.SeqNo →
      k1 = k2 ∧ i1 = i2) ∧
    (∀ (k : String) (q : FakeElasticsearchRequests),
      (exec unmarshal (NewFakeElasticsearchChatter script) ops).Requests k = some q →
      SeqIncreasing q) := by
  have hinv := captureInv_exec unmarshal _ ops (captureInv_fresh script)
  have huniq := seqNoUnique_exec unmarshal _ ops (captureInv_fresh script)
    (seqNoUnique_fresh script)
  refine ⟨by rw [exec_seqNo, fresh_seqNo], ?_, ?_, ?_⟩
  · intro k q c hq hc
    exact (hinv.2 k q hq).1 c hc
  · intro k1 k2 q1 q2 i1 i2 c1 c2 h1 h2 hc1 hc2 heq
    have hm1 := List.getElem?_mem hc1
    have hm2 := List.getElem?_mem hc2
    have hsame := huniq k1 k2 q1 q2 c1 c2 h1 h2 hm1 hm2 heq
    have hk : k1 = k2 := by
      rw [← ((hinv.2 k1 q1 h1).1 c1 hm1).2.2, ← ((hinv.2 k2 q2 h2).1 c2 hm2).2.2, hsame]
    subst hk
    rw [h1] at h2
    injection h2 with h2
    subst h2
    exact ⟨rfl, seqIncreasing_index q1 (hinv.2 k1 q1 h1).2 i1 i2 c1 c2 hc1 hc2 heq⟩
  · intro k q hq
    exact (hinv.2 k q hq).2

/-! ## Scripted responses in shared memory: map objects -/

theorem setAt_same {α : Type} (f : Nat → α) (a : Nat) (v : α) : setAt f a v a = v := by
  simp [setAt]

theorem setAt_other {α : Type} (f : Nat → α) (a b : Nat) (v : α) (h : b ≠ a) :
    setAt f a v b = f b := by
  simp [setAt, h]

theorem lookup_assign {V : Type} (entries : List (String × V)) (k j : String) (v : V) :
    (assign entries k v).lookup j = if j = k then some v else entries.lookup j := by
  induction entries with
  | nil =>
    by_cases hj : j = k
    · subst hj
      simp [assign, List.lookup_cons]
    · have hne : (j == k) = false := by simpa using hj
      simp [assign, List.lookup_cons, hne, hj]
  | cons e rest ih =>
    obtain ⟨ek, ev⟩ := e
    by_cases hek : ek = k
    · subst hek
      by_cases hj : j = ek
      · subst hj
        simp [assign, List.lookup_cons]
      · have hne : (j == ek) = false := by simpa using hj
        simp [assign, List.lookup_cons, hne, hj]
    · by_cases hj : j = ek
      · subst hj
        have hjk : ¬ j = k := hek
        simp [assign, hek, List.lookup_cons, hjk]
      · have hne : (j == ek) = false := by simpa using hj
        simp only [assign, hek, if_false, List.lookup_cons, hne]
        exact ih

theorem lookup_foldl_assign {V : Type} (entries acc : List (String × V)) (k : String)
    (hnd : DistinctKeys entries) :
    (entries.foldl (fun fres entry => assign fres entry.1 entry.2) acc).lookup k =
      match entries.lookup k with
      | some v => some v
      | none => acc.lookup k := by
  induction entries generalizing acc with
  | nil => simp
  | cons e rest ih =>
    obtain ⟨ek, ev⟩ := e
    have hnd2 : ek ∉ rest.map Prod.fst ∧ DistinctKeys rest := by
      simpa [DistinctKeys] using hnd
    rw [List.foldl_cons, ih _ hnd2.2]
    by_cases hk : k = ek
    · subst hk
      have hnone : rest.lookup k = none := by
        cases h : rest.lookup k with
        | none => rfl
        | some v =>
          exact absurd ((mem_keys_iff_lookup rest k).2 (by simp [h])) hnd2.1
      simp [hnone, lookup_assign, List.lookup_cons]
    · have hne : (k == ek) = false := by simpa using hk
      simp only [List.lookup_cons, hne, lookup_assign, hk, if_false]

/-! ## Scripted responses in shared memory: effect of the operations -/

theorem mem_New_chatter (mem : Memory) (table : Nat) :
    (Mem.NewFakeElasticsearchChatter mem table).2.Responses = mem.nextMap := rfl

theorem mem_New_arrays (mem : Memory) (table : Nat) :
    (Mem.NewFakeElasticsearchChatter mem table).1.arrays = mem.arrays := rfl

theorem mem_New_nextMap (mem : Memory) (table : Nat) :
    (Mem.NewFakeElasticsearchChatter mem table).1.nextMap = mem.nextMap + 1 := rfl

theorem mem_New_maps_other (mem : Memory) (table a : Nat) (h : a ≠ mem.nextMap) :
    (Mem.NewFakeElasticsearchChatter mem table).1.maps a = mem.maps a :=
  setAt_other _ _ _ _ h

/-- The new map object holds, under each key of the table, the table's slice
header. -/
theorem mem_New_lookup (mem : Memory) (table : Nat) (k : String)
    (hnd : DistinctKeys (mem.maps table)) :
    ((Mem.NewFakeElasticsearchChatter mem table).1.maps mem.nextMap).lookup k =
      (mem.maps table).lookup k := by
  have h : (Mem.NewFakeElasticsearchChatter mem table).1.maps mem.nextMap =
      (mem.maps table).foldl (fun fres entry => assign fres entry.1 entry.2) [] :=
    setAt_same _ _ _
  rw [h, lookup_foldl_assign _ _ _ hnd]
  cases (mem.maps table).lookup k <;> rfl

theorem mem_GetResponse_arrays (mem : Memory) (chat : MemChatter) (key : String) :
    (Mem.GetResponse mem chat key).1.arrays = mem.arrays := by
  unfold Mem.GetResponse
  split
  · rfl
  · split
    · rfl
    · split <;> rfl

theorem mem_GetResponse_nextMap (mem : Memory) (chat : MemChatter) (key : String) :
    (Mem.GetResponse mem chat key).1.nextMap = mem.nextMap := by
  unfold Mem.GetResponse
  split
  · rfl
  · split
    · rfl
    · split <;> rfl

/-- `GetResponse` stores only in the map object of its own chatter. -/
theorem mem_GetResponse_maps_other (mem : Memory) (chat : MemChatter) (key : String) (a : Nat)
    (h : a ≠ chat.Responses) : (Mem.GetResponse mem chat key).1.maps a = mem.maps a := by
  unfold Mem.GetResponse
  split
  · rfl
  · split
    · rfl
    · split
      · rfl
      · exact setAt_other _ _ _ _ h

theorem mem_step_frame (mem : Memory) (chat : MemChatter) (op : Op) (a : Nat)
    (h : a ≠ chat.Responses) :
    (Mem.step mem chat op).arrays = mem.arrays ∧
    (Mem.step mem chat op).nextMap = mem.nextMap ∧
    (Mem.step mem chat op).maps a = mem.maps a := by
  cases op with
  | call p =>
    exact ⟨mem_GetResponse_arrays mem chat _, mem_GetResponse_nextMap mem chat _,
      mem_GetResponse_maps_other mem chat _ a h⟩
  | getRequest k => exact ⟨rfl, rfl, rfl⟩
  | getResponse k =>
    exact ⟨mem_GetResponse_arrays mem chat _, mem_GetResponse_nextMap mem chat _,
      mem_GetResponse_maps_other mem chat _ a h⟩

/-- Operations on a chatter leave the backing arrays and every map object other
than the chatter's own as they were. -/
theorem mem_exec_frame (mem : Memory) (chat : MemChatter) (ops : List Op) (a : Nat)
    (h : a ≠ chat.Responses) :
    (Mem.exec mem chat ops).arrays = mem.arrays ∧
    (Mem.exec mem chat ops).nextMap = mem.nextMap ∧
    (Mem.exec mem chat ops).maps a = mem.maps a := by
  induction ops generalizing mem with
  | nil => exact ⟨rfl, rfl, rfl⟩
  | cons op rest ih =>
    have hs := mem_step_frame mem chat op a h
    have hr := ih (Mem.step mem chat op)
    have hx : Mem.exec mem chat (op :: rest) = Mem.exec (Mem.step mem chat op) chat rest := rfl
    rw [hx, hr.1, hr.2.1, hr.2.2]
    exact hs

/-- The first element of a slice and the slice `responses[1:]`. -/
theorem sliceValue_cons (mem : Memory) (sl : ResponseSlice) (r : FakeElasticsearchResponse)
    (rest : FakeElasticsearchResponses) (h : sliceValue mem sl = r :: rest) :
    sl.len ≠ 0 ∧ (mem.arrays sl.array)[sl.offset]? = some r ∧
    sliceValue mem { sl with offset := sl.offset + 1, len := sl.len - 1 } = rest := by
  obtain ⟨array, offset, len⟩ := sl
  simp only [sliceValue] at h ⊢
  cases len with
  | zero => simp at h
  | succ m =>
    cases hd : (mem.arrays array).drop offset with
    | nil => simp [hd] at h
    | cons x xs =>
      rw [hd, List.take_succ_cons] at h
      injection h with h1 h2
      refine ⟨by omega, ?_, ?_⟩
      · rw [← List.head?_drop, hd, ← h1]
        rfl
      · rw [← List.tail_drop, hd]
        simpa using h2

/-- On a queue that is not empty `GetResponse` returns the first element and
leaves the rest under the key. -/
theorem mem_GetResponse_pop (mem : Memory) (chat : MemChatter) (key : String)
    (sl : ResponseSlice) (r : FakeElasticsearchResponse) (rest : FakeElasticsearchResponses)
    (hl : (mem.maps chat.Responses).lookup key = some sl)
    (hv : sliceValue mem sl = r :: rest) :
    (Mem.GetResponse mem chat key).2 = .ok (some r, true) ∧
    ∃ sl1, ((Mem.GetResponse mem chat key).1.maps chat.Responses).lookup key = some sl1 ∧
      sliceValue (Mem.GetResponse mem chat key).1 sl1 = rest := by
  obtain ⟨hlen, helem, hrest⟩ := sliceValue_cons mem sl r rest hv
  have hout : (Mem.GetResponse mem chat key).2 = .ok (some r, true) := by
    simp [Mem.GetResponse, hl, hlen, helem]
  have hmaps : (Mem.GetResponse mem chat key).1.maps chat.Responses =
      assign (mem.maps chat.Responses) key
        { sl with offset := sl.offset + 1, len := sl.len - 1 } := by
    simp [Mem.GetResponse, hl, hlen, helem, setAt_same]
  refine ⟨hout, { sl with offset := sl.offset + 1, len := sl.len - 1 }, ?_, ?_⟩
  · rw [hmaps, lookup_assign]
    simp
  · have harr := mem_GetResponse_arrays mem chat key
    simp only [sliceValue, harr] at hrest ⊢
    exact hrest

/-- As many retrievals as the queue is long return its elements in order. -/
theorem mem_getResponses_all (chat : MemChatter) (key : String)
    (rs : FakeElasticsearchResponses) (mem : Memory) (sl : ResponseSlice)
    (hl : (mem.maps chat.Responses).lookup key = some sl) (hv : sliceValue mem sl = rs) :
    Mem.getResponses mem chat key rs.length = rs.map (fun r => Outcome.ok (some r, true)) := by
  induction rs generalizing mem sl with
  | nil => rfl
  | cons r rest ih =>
    obtain ⟨hout, sl1, hl1, hv1⟩ := mem_GetResponse_pop mem chat key sl r rest hl hv
    simp only [List.length_cons, Mem.getResponses, List.map_cons, hout]
    rw [ih _ sl1 hl1 hv1]

/-! ## The two models agree -/

theorem sliceValue_nil (mem : Memory) (sl : ResponseSlice) (h : sliceValue mem sl = []) :
    sl.len = 0 ∨ (mem.arrays sl.array)[sl.offset]? = none := by
  obtain ⟨array, offset, len⟩ := sl
  simp only [sliceValue] at h ⊢
  cases len with
  | zero => exact Or.inl rfl
  | succ m =>
    right
    cases hd : (mem.arrays array).drop offset with
    | nil => rw [← List.head?_drop, hd]; rfl
    | cons x xs => simp [hd] at h

theorem mem_GetResponse_empty (mem : Memory) (chat : MemChatter) (key : String)
    (sl : ResponseSlice) (hl : (mem.maps chat.Responses).lookup key = some sl)
    (hv : sliceValue mem sl = []) :
    Mem.GetResponse mem chat key = (mem, .indexOutOfRange) := by
  rcases sliceValue_nil mem sl hv with h | h
  · simp [Mem.GetResponse, hl, h]
  · by_cases h0 : sl.len = 0
    · simp [Mem.GetResponse, hl, h0]
    · simp [Mem.GetResponse, hl, h0, h]

theorem mem_GetResponse_absent (mem : Memory) (chat : MemChatter) (key : String)
    (hl : (mem.maps chat.Responses).lookup key = none) :
    Mem.GetResponse mem chat key = (mem, .ok (none, false)) := by
  simp [Mem.GetResponse, hl]

/-- `GetResponse` on the memory does what `GetResponse` of the first model does
on the table the memory stands for: same result, and the table afterwards is
the one the memory afterwards stands for. -/
theorem mem_GetResponse_refines (mem : Memory) (chat : MemChatter) (key : String)
    (c : FakeElasticsearchChatter) (hc : c.Responses = viewResponses mem chat) :
    (GetResponse c key).2 = (Mem.GetResponse mem chat key).2 ∧
    (GetResponse c key).1.Responses = viewResponses (Mem.GetResponse mem chat key).1 chat := by
  cases hl : (mem.maps chat.Responses).lookup key with
  | none =>
    have hck : c.Responses key = none := by rw [hc]; simp [viewResponses, hl]
    rw [mem_GetResponse_absent mem chat key hl]
    simp [GetResponse, hck, hc]
  | some sl =>
    have hck : c.Responses key = some (sliceValue mem sl) := by
      rw [hc]; simp [viewResponses, hl]
    cases hv : sliceValue mem sl with
    | nil =>
      rw [mem_GetResponse_empty mem chat key sl hl hv]
      rw [hv] at hck
      simp [GetResponse, hck, hc]
    | cons r rest =>
      obtain ⟨hout, sl1, hl1, hv1⟩ := mem_GetResponse_pop mem chat key sl r rest hl hv
      rw [hv] at hck
      refine ⟨by simp [GetResponse, hck, hout], ?_⟩
      have hval : (GetResponse c key).1.Responses = c.Responses.set key rest := by
        simp [GetResponse, hck]
      rw [hval]
      funext j
      by_cases hj : j = key
      · subst hj
        rw [GoMap.set_same]
        simp [viewResponses, hl1, hv1]
      · rw [GoMap.set_other _ _ _ _ hj, hc]
        have hmaps : (Mem.GetResponse mem chat key).1.maps chat.Responses =
            assign (mem.maps chat.Responses) key
              { sl with offset := sl.offset + 1, len := sl.len - 1 } := by
          obtain ⟨hlen, helem, _⟩ := sliceValue_cons mem sl r rest hv
          simp [Mem.GetResponse, hl, hlen, helem, setAt_same]
        have harr := mem_GetResponse_arrays mem chat key
        simp only [viewResponses, hmaps, lookup_assign, hj, if_false]
        cases (mem.maps chat.Responses).lookup j with
        | none => rfl
        | some s0 => simp [sliceValue, harr]

/-- The chatter built on the memory stands for the chatter the first model
builds from the script the caller's table stands for. -/
theorem mem_New_refines (mem : Memory) (table : Nat) (hnd : DistinctKeys (mem.maps table)) :
    viewResponses (Mem.NewFakeElasticsearchChatter mem table).1
        (Mem.NewFakeElasticsearchChatter mem table).2 =
      (NewFakeElasticsearchChatter (tableValue mem table)).Responses := by
  funext k
  have hlook := mem_New_lookup mem table k hnd
  have hview : viewResponses (Mem.NewFakeElasticsearchChatter mem table).1
      (Mem.NewFakeElasticsearchChatter mem table).2 k =
      ((mem.maps table).lookup k).map (sliceValue mem) := by
    simp only [viewResponses, mem_New_chatter, hlook]
    rfl
  rw [hview]
  have hkeys : (tableValue mem table).map Prod.fst = (mem.maps table).map Prod.fst := by
    simp [tableValue]
  cases hl : (mem.maps table).lookup k with
  | none =>
    have habs : k ∉ (tableValue mem table).map Prod.fst := by
      rw [hkeys, mem_keys_iff_lookup, hl]
      simp
    exact (foldl_set_absent (tableValue mem table) GoMap.empty k habs).symm
  | some sl =>
    have hmem : (k, sl) ∈ mem.maps table := (lookup_eq_some_iff _ k sl hnd).1 hl
    have hmem2 : (k, sliceValue mem sl) ∈ tableValue mem table :=
      List.mem_map.2 ⟨(k, sl), hmem, rfl⟩
    have hnd2 : DistinctKeys (tableValue mem table) := by
      unfold DistinctKeys
      rw [hkeys]
      exact hnd
    exact (fresh_Responses (tableValue mem table) k (sliceValue mem sl) hnd2 hmem2).symm

/-! ## Claim on the caller's table -/

/-- C18. Let the caller's table be the map object at an allocated address, with
distinct keys. After a chatter has been built from it and any sequence of
simulated calls and retrievals has been run on that chatter, the table's map
object and every backing array are as before, so the table stands for the same
script; a second chatter built from the table then stands for the chatter built
from the original script, and for every endpoint its successive retrievals
return the whole original sequence of responses, in order. -/
theorem caller_table_never_changes (mem : Memory) (table : Nat) (ops : List Op)
    (ht : table < mem.nextMap) (hnd : DistinctKeys (mem.maps table)) :
    (afterFirstChatter mem table ops).maps table = mem.maps table ∧
    (afterFirstChatter mem table ops).arrays = mem.arrays ∧
    tableValue (afterFirstChatter mem table ops) table = tableValue mem table ∧
    viewResponses (Mem.NewFakeElasticsearchChatter (afterFirstChatter mem table ops) table).1
        (Mem.NewFakeElasticsearchChatter (afterFirstChatter mem table ops) table).2 =
      (NewFakeElasticsearchChatter (tableValue mem table)).Responses ∧
    (∀ (k : String) (rs : FakeElasticsearchResponses), (k, rs) ∈ tableValue mem table →
      Mem.getResponses
          (Mem.NewFakeElasticsearchChatter (afterFirstChatter mem table ops) table).1
          (Mem.NewFakeElasticsearchChatter (afterFirstChatter mem table ops) table).2
          k rs.length =
        rs.map (fun r => Outcome.ok (some r, true))) := by
  have hne : table ≠ (Mem.NewFakeElasticsearchChatter mem table).2.Responses := by
    rw [mem_New_chatter]
    omega
  have hframe := mem_exec_frame (Mem.NewFakeElasticsearchChatter mem table).1
    (Mem.NewFakeElasticsearchChatter mem table).2 ops table hne
  have hmaps : (afterFirstChatter mem table ops).maps table = mem.maps table := by
    unfold afterFirstChatter
    rw [hframe.2.2]
    exact mem_New_maps_other mem table table (by omega)
  have harr : (afterFirstChatter mem table ops).arrays = mem.arrays := by
    unfold afterFirstChatter
    rw [hframe.1, mem_New_arrays]
  have htab : tableValue (afterFirstChatter mem table ops) table = tableValue mem table := by
    simp only [tableValue, sliceValue, hmaps, harr]
  have hnd2 : DistinctKeys ((afterFirstChatter mem table ops).maps table) := by
    rw [hmaps]
    exact hnd
  refine ⟨hmaps, harr, htab, ?_, ?_⟩
  · rw [mem_New_refines _ table hnd2, htab]
  · intro k rs hmem
    obtain ⟨entry, hentry, heq⟩ := List.mem_map.1 hmem
    obtain ⟨ek, sl⟩ := entry
    simp only [Prod.mk.injEq] at heq
    obtain ⟨hk, hrs⟩ := heq
    subst hk
    have hlook : (mem.maps table).lookup ek = some sl := (lookup_eq_some_iff _ ek sl hnd).2 hentry
    have hlook2 : ((Mem.NewFakeElasticsearchChatter (afterFirstChatter mem table ops) table).1.maps
        (Mem.NewFakeElasticsearchChatter (afterFirstChatter mem table ops)
          table).2.Responses).lookup ek = some sl := by
      rw [mem_New_chatter, mem_New_lookup _ table ek hnd2, hmaps]
      exact hlook
    have hval : sliceValue
        (Mem.NewFakeElasticsearchChatter (afterFirstChatter mem table ops) table).1 sl = rs := by
      rw [← hrs]
      simp only [sliceValue, mem_New_arrays, harr]
    exact mem_getResponses_all _ ek rs _ sl hlook2 hval

/-- C18, one backing array shared by the caller's table and the first chatter:
after the first chatter has dispensed both responses of `/a` and holds an empty
queue, a second chatter built from the table dispenses both again. -/
theorem caller_table_never_changes_witness :
    0 < sharedMemory.nextMap ∧ DistinctKeys (sharedMemory.maps 0) ∧
    tableValue sharedMemory 0 =
      [("/a", [{ Error := none, StatusCode := 200, Body := "first" },
               { Error := none, StatusCode := 404, Body := "second" }])] ∧
    viewResponses (afterFirstChatter sharedMemory 0 twoCallsToA) { Responses := 1 } "/a" =
      some [] ∧
    Mem.getResponses
        (Mem.NewFakeElasticsearchChatter (afterFirstChatter sharedMemory 0 twoCallsToA) 0).1
        (Mem.NewFakeElasticsearchChatter (afterFirstChatter sharedMemory 0 twoCallsToA) 0).2
        "/a" 2 =
      [.ok (some { Error := none, StatusCode := 200, Body := "first" }, true),
       .ok (some { Error := none, StatusCode := 404, Body := "second" }, true)] :=
  ⟨by decide, by decide, by decide, by decide,
    (caller_table_never_changes sharedMemory 0 twoCallsToA (by decide) (by decide)).2.2.2.2
      "/a" [{ Error := none, StatusCode := 200, Body := "first" },
            { Error := none, StatusCode := 404, Body := "second" }] (by decide)⟩

end EsOperator
